import Mathlib

/-!
# Verification of the driving-school scheduling core

A shallow embedding of the lesson-scheduling and assignment code of the
repository (Django application: `scheduling/models.py`, `scheduling/forms.py`,
`scheduling/views.py`, `assignments/models.py`, `assignments/views.py`).

Conventions of the embedding:

* Instants (`datetime` values) are integers counting minutes; timezone
  conversion of a naive wall-clock value with a fixed UTC offset is
  subtraction of that offset.  All comparisons in the source happen between
  aware datetimes, i.e. between instants.
* The lesson table is a `List Lesson`; Django's `objects.filter(...)` becomes
  `List.filter`, `.exclude(pk=...)` a filter on `id`, `.update(...)` a
  `List.map`, and `save()` on a fresh row an append.
* Fallible code (`raise ValidationError`, 4xx JSON responses) returns
  `Except`/explicit result types.
* Display-only columns (title, subject, description, files, links) are not
  carried: no claim mentions them.  `zoom_link` is kept as a string because
  `LessonForm.clean` validates it.
* The `original_start_time` / `original_end_time` columns are referenced by
  `scheduling/views.py` (lines 190 and 834-843) but their declaration is
  absent from the `Lesson` model in `scheduling/models.py`; they are modelled
  from the spec: nullable instants, set once on first reschedule.  Likewise
  the `LessonFeedback` model is referenced by views, admin and tests but not
  declared in `scheduling/models.py`; it is modelled from the spec: one row
  `(lesson, user, is_teacher, rating, comment)`, unique per `(lesson, user)`.
-/

/-- Status of a lesson, `Lesson.LessonStatus` in `scheduling/models.py`. -/
inductive LessonStatus
  | scheduled
  | completed
  | cancelled
  | rescheduled
deriving DecidableEq, Repr

deriving instance DecidableEq for Except

/-- A row of the lesson table.  Fields mirror `scheduling/models.py`
(`Lesson`), minus display-only columns; `original_start_time` /
`original_end_time` are modelled from the spec (declaration missing from
`models.py`, see module header). -/
structure Lesson where
  id : Nat
  teacher : Nat
  student : Nat
  start_time : Int
  end_time : Int
  status : LessonStatus
  teacher_confirmed_completion : Bool
  student_confirmed_completion : Bool
  completion_confirmed_at : Option Int
  teacher_rating : Option Int
  student_rating : Option Int
  original_start_time : Option Int
  original_end_time : Option Int
deriving DecidableEq, Repr

/-- The two statuses that `Lesson.clean` and `LessonForm.clean` treat as
conflicting: `status__in=[SCHEDULED, COMPLETED]`. -/
def LessonStatus.codeActive : LessonStatus → Bool
  | .scheduled => true
  | .completed => true
  | _ => false

/-- The glossary's notion of an active lesson:
status ∈ {SCHEDULED, RESCHEDULED, COMPLETED}. -/
def LessonStatus.specActive : LessonStatus → Bool
  | .cancelled => false
  | _ => true

/-- Minimum lesson duration in minutes (`timedelta(minutes=30)`). -/
def minDurationMinutes : Int := 30

/-- Required inter-lesson break in minutes (`timedelta(minutes=15)`). -/
def breakMinutes : Int := 15

/-- One week in minutes (`timedelta(weeks=1)`). -/
def weekMinutes : Int := 7 * 24 * 60

/-- `Lesson.objects.filter(teacher=..., start_time__lt=..., end_time__gt=...,
status__in=[SCHEDULED, COMPLETED]).exclude(pk=...)` is nonempty: the teacher
overlap query of `Lesson.clean`. -/
def teacherOverlapExists (db : List Lesson) (l : Lesson) : Bool :=
  db.any fun x =>
    x.teacher == l.teacher && x.start_time < l.end_time &&
    x.end_time > l.start_time && x.status.codeActive && x.id != l.id

/-- Same query keyed on the student (`Lesson.clean`, second check). -/
def studentOverlapExists (db : List Lesson) (l : Lesson) : Bool :=
  db.any fun x =>
    x.student == l.student && x.start_time < l.end_time &&
    x.end_time > l.start_time && x.status.codeActive && x.id != l.id

/-- `Lesson.clean` (`scheduling/models.py` lines 106-136): minimum duration,
then teacher overlap, then student overlap, each raising `ValidationError`. -/
def Lesson.clean (db : List Lesson) (l : Lesson) : Except String Unit :=
  if l.end_time - l.start_time < minDurationMinutes then
    .error "Minimum lesson duration is 30 minutes"
  else if teacherOverlapExists db l then
    .error "Teacher has conflicting lesson at this time"
  else if studentOverlapExists db l then
    .error "Student has conflicting lesson at this time"
  else
    .ok ()

/-- `Lesson.save` on a row without a primary key yet: `self.clean()` then SQL
INSERT (append). -/
def insertLesson (db : List Lesson) (l : Lesson) : Except String (List Lesson) :=
  match Lesson.clean db l with
  | .error e => .error e
  | .ok _ => .ok (db ++ [l])

/-- `Lesson.save` on an existing row: `self.clean()` then SQL UPDATE of the
row with the same primary key. -/
def updateLesson (db : List Lesson) (l : Lesson) : Except String (List Lesson) :=
  match Lesson.clean db l with
  | .error e => .error e
  | .ok _ => .ok (db.map fun x => if x.id == l.id then l else x)

/-- `lesson.save()` as the views use it inside try/except (or where a raised
`ValidationError` aborts the request before anything is persisted): on
success the updated table, on a validation error the unchanged table. -/
def updateOr (db : List Lesson) (l : Lesson) : List Lesson :=
  match updateLesson db l with
  | .error _ => db
  | .ok db' => db'

/-- `Lesson.objects.get(pk=...)` / `get_object_or_404`. -/
def findLesson (db : List Lesson) (i : Nat) : Option Lesson :=
  db.find? fun x => x.id == i

/-- The spec's claimed teacher invariant (P1 with the glossary's notion of
active): any two distinct active lessons of one teacher are separated by at
least the 15-minute break.  Pairwise separation by ≥ 15 minutes is the
conjunction of "the [start,end) intervals do not overlap" and "the gap
between any two consecutive ones is ≥ 15 minutes" (gaps between
non-consecutive lessons only grow). -/
def claimedTeacherInvariant (db : List Lesson) : Prop :=
  ∀ l1 ∈ db, ∀ l2 ∈ db, l1.id ≠ l2.id → l1.teacher = l2.teacher →
    l1.status.specActive → l2.status.specActive →
    (l1.end_time + breakMinutes ≤ l2.start_time ∨
     l2.end_time + breakMinutes ≤ l1.start_time)

/-- The invariant the code actually maintains: lessons with status SCHEDULED
or COMPLETED belonging to one teacher never overlap. -/
def codeTeacherNoOverlap (db : List Lesson) : Prop :=
  ∀ l1 ∈ db, ∀ l2 ∈ db, l1.id ≠ l2.id → l1.teacher = l2.teacher →
    l1.status.codeActive → l2.status.codeActive →
    (l1.end_time ≤ l2.start_time ∨ l2.end_time ≤ l1.start_time)

instance (db : List Lesson) : Decidable (claimedTeacherInvariant db) := by
  unfold claimedTeacherInvariant; infer_instance

instance (db : List Lesson) : Decidable (codeTeacherNoOverlap db) := by
  unfold codeTeacherNoOverlap; infer_instance

/-- A RESCHEDULED lesson of teacher 1 occupying minutes [100, 160). -/
def rescheduledLesson : Lesson :=
  { id := 0, teacher := 1, student := 2, start_time := 100, end_time := 160,
    status := .rescheduled,
    teacher_confirmed_completion := false, student_confirmed_completion := false,
    completion_confirmed_at := none, teacher_rating := none,
    student_rating := none, original_start_time := some 40,
    original_end_time := some 100 }

/-- A fresh SCHEDULED lesson for the same teacher and the same window. -/
def clashingLesson : Lesson :=
  { id := 1, teacher := 1, student := 3, start_time := 100, end_time := 160,
    status := .scheduled,
    teacher_confirmed_completion := false, student_confirmed_completion := false,
    completion_confirmed_at := none, teacher_rating := none,
    student_rating := none, original_start_time := none,
    original_end_time := none }

/-- A plain SCHEDULED lesson on [100,160) with no reschedule history, used
as a concrete witness input. -/
def freshLesson : Lesson :=
  { id := 7, teacher := 1, student := 2, start_time := 100, end_time := 160,
    status := .scheduled,
    teacher_confirmed_completion := false, student_confirmed_completion := false,
    completion_confirmed_at := none, teacher_rating := none,
    student_rating := none, original_start_time := none,
    original_end_time := none }

/-- A SCHEDULED lesson whose student has already confirmed completion, so a
teacher confirmation is the second flag. -/
def cwLesson : Lesson :=
  { id := 7, teacher := 1, student := 2, start_time := 100, end_time := 160,
    status := .scheduled,
    teacher_confirmed_completion := false, student_confirmed_completion := true,
    completion_confirmed_at := none, teacher_rating := none,
    student_rating := none, original_start_time := none,
    original_end_time := none }

/-- `cwLesson` after the teacher's confirmation completes it at time 200. -/
def cwLesson' : Lesson :=
  { cwLesson with
    teacher_confirmed_completion := true
    status := .completed
    completion_confirmed_at := some 200 }

/-- A CANCELLED lesson on [100,160) with no confirmations yet. -/
def cancelledLesson : Lesson :=
  { id := 9, teacher := 1, student := 2, start_time := 100, end_time := 160,
    status := .cancelled,
    teacher_confirmed_completion := false, student_confirmed_completion := false,
    completion_confirmed_at := none, teacher_rating := none,
    student_rating := none, original_start_time := none,
    original_end_time := none }

/-- Maximum of a list of integers (`order_by('-end_time').first()` keeps only
the largest `end_time`, which is all the form uses). -/
def maxInt? (l : List Int) : Option Int :=
  l.foldl (fun a x => match a with | none => some x | some v => some (max v x)) none

/-- Minimum of a list of integers (`order_by('start_time').first()`). -/
def minInt? (l : List Int) : Option Int :=
  l.foldl (fun a x => match a with | none => some x | some v => some (min v x)) none

/-- `end_time` of `previous_lessons.first()` in `LessonForm.clean`: the
latest `end_time` among the teacher's SCHEDULED/COMPLETED lessons with
`end_time__lte` the candidate start, the edited instance excluded. -/
def latestPrevEnd (db : List Lesson) (teacher : Nat) (s : Int)
    (ex : Option Nat) : Option Int :=
  maxInt? ((db.filter fun x =>
    x.teacher == teacher && x.end_time ≤ s && x.status.codeActive &&
    (match ex with | some p => x.id != p | none => true)).map (·.end_time))

/-- `start_time` of `next_lessons.first()` in `LessonForm.clean`: the earliest
`start_time` among the teacher's SCHEDULED/COMPLETED lessons with
`start_time__gte` the candidate end, the edited instance excluded. -/
def earliestNextStart (db : List Lesson) (teacher : Nat) (e : Int)
    (ex : Option Nat) : Option Int :=
  minInt? ((db.filter fun x =>
    x.teacher == teacher && x.start_time ≥ e && x.status.codeActive &&
    (match ex with | some p => x.id != p | none => true)).map (·.start_time))

/-- The `forms.ValidationError`s `LessonForm.clean` can raise, in source
order; the break errors carry the boundary time their message names
(`last_lesson_end` resp. `next_lesson_start`). -/
inductive FormError
  | pastTime
  | breakBeforePrev (prevEnd : Int)
  | breakAfterNext (nextStart : Int)
  | zoomRequired
deriving DecidableEq, Repr

/-- `LessonForm.clean` (`scheduling/forms.py` lines 91-166), time-and-break
part.  `naiveStart` is the wall-clock combination of `lesson_date` and
`start_time`, `tzOffset` the resolved UTC offset of `user_timezone` (so the
UTC instant is their difference); `end_datetime` is the start plus the chosen
duration.  Checks run in source order: past start, previous-neighbour break,
next-neighbour break, then the required `zoom_link`.  On success the
cleaned `(start_datetime, end_datetime)` instants are returned. -/
def LessonForm.clean (db : List Lesson) (instancePk : Option Nat)
    (teacher : Nat) (naiveStart tzOffset durationMinutes : Int)
    (zoomLink : String) (now : Int) : Except FormError (Int × Int) :=
  let startUtc := naiveStart - tzOffset
  let endTime := startUtc + durationMinutes
  let nextCheck : Except FormError (Int × Int) :=
    match earliestNextStart db teacher endTime instancePk with
    | some q =>
        if q - endTime < breakMinutes then .error (.breakAfterNext q)
        else if zoomLink = "" then .error .zoomRequired
        else .ok (startUtc, endTime)
    | none =>
        if zoomLink = "" then .error .zoomRequired
        else .ok (startUtc, endTime)
  if startUtc < now then .error .pastTime
  else
    match latestPrevEnd db teacher startUtc instancePk with
    | some p =>
        if startUtc - p < breakMinutes then .error (.breakBeforePrev p)
        else nextCheck
    | none => nextCheck

/-- Failure surface of `LessonCreateView`: either the form rejects
(`form_invalid`) or `Lesson.save` raises a `ValidationError`. -/
inductive CreateError
  | formError (e : FormError)
  | modelError (msg : String)
deriving DecidableEq, Repr

/-- The single-lesson create path (`LessonCreateView.form_valid` via
`LessonForm.save`): run `LessonForm.clean`, build a SCHEDULED lesson with the
cleaned instants, persist it through `Lesson.save` (which re-runs
`Lesson.clean`). -/
def createLessonViaForm (db : List Lesson) (newId teacher student : Nat)
    (naiveStart tzOffset durationMinutes : Int) (zoomLink : String)
    (now : Int) : Except CreateError (List Lesson) :=
  match LessonForm.clean db none teacher naiveStart tzOffset durationMinutes
      zoomLink now with
  | .error e => .error (.formError e)
  | .ok (s, e) =>
      let l : Lesson :=
        { id := newId, teacher := teacher, student := student,
          start_time := s, end_time := e, status := .scheduled,
          teacher_confirmed_completion := false,
          student_confirmed_completion := false,
          completion_confirmed_at := none, teacher_rating := none,
          student_rating := none, original_start_time := none,
          original_end_time := none }
      match insertLesson db l with
      | .error m => .error (.modelError m)
      | .ok db' => .ok db'

/-- Outcome of the reschedule endpoint (`reschedule_lesson`): HTTP success,
the past-time rejection, a 404 for an unknown lesson, or the caught
exception from `Lesson.save` (`except ... JsonResponse({'success': False})`). -/
inductive RescheduleResult
  | success
  | pastTime
  | notFound
  | validationError (msg : String)
deriving DecidableEq, Repr

/-- The new end instant of a reschedule: the explicit `end_time` field when
sent, otherwise the new start plus the lesson's previous duration. -/
def resolveNewEnd (lesson : Lesson) (newStartUtc : Int) (newEndNaive : Option Int)
    (tzOffset : Int) : Int :=
  match newEndNaive with
  | some e => e - tzOffset
  | none => newStartUtc + (lesson.end_time - lesson.start_time)

/-- The in-memory mutation of `reschedule_lesson`: fill
`original_start_time`/`original_end_time` only when still unset, move the
window, set status RESCHEDULED. -/
def applyReschedule (lesson : Lesson) (newStartUtc newEnd : Int) : Lesson :=
  { lesson with
    original_start_time := (match lesson.original_start_time with
      | none => some lesson.start_time
      | some v => some v)
    original_end_time := (match lesson.original_end_time with
      | none => some lesson.end_time
      | some v => some v)
    start_time := newStartUtc
    end_time := newEnd
    status := .rescheduled }

/-- `reschedule_lesson` (`scheduling/views.py` lines 778-871): resolve the
new start in the caller's timezone and convert to UTC; reject a past start;
keep the duration when no explicit end is sent; fill the originals once, set
status RESCHEDULED and save.  A `ValidationError` from `Lesson.save` is
caught and nothing is persisted. -/
def rescheduleLesson (db : List Lesson) (lessonId : Nat)
    (naiveStart tzOffset : Int) (newEndNaive : Option Int) (now : Int) :
    RescheduleResult × List Lesson :=
  match findLesson db lessonId with
  | none => (.notFound, db)
  | some lesson =>
      let newStartUtc := naiveStart - tzOffset
      if newStartUtc < now then (.pastTime, db)
      else
        match updateLesson db (applyReschedule lesson newStartUtc
            (resolveNewEnd lesson newStartUtc newEndNaive tzOffset)) with
        | .error m => (.validationError m, db)
        | .ok db' => (.success, db')

/-- One row of the bulk update in `_auto_complete_elapsed_lessons`:
`status__in=[SCHEDULED, RESCHEDULED], end_time__lt=now` rows get status
COMPLETED, others are untouched. -/
def applySweepOne (now : Int) (l : Lesson) : Lesson :=
  if (l.status == .scheduled || l.status == .rescheduled) &&
      l.end_time < now then
    { l with status := .completed }
  else l

/-- `_auto_complete_elapsed_lessons` (`scheduling/views.py` lines 27-32): a
conditional bulk `update` that bypasses `Lesson.clean`. -/
def autoCompleteElapsedLessons (db : List Lesson) (now : Int) : List Lesson :=
  db.map (applySweepOne now)

/-- The in-memory mutation of `confirm_lesson_completion`
(`scheduling/views.py` lines 916-929): set the requesting participant's
flag, and if both flags are now true flip the status to COMPLETED and stamp
`completion_confirmed_at` — with no `can_be_confirmed`, status or end-time
guard. -/
def applyConfirm (l : Lesson) (u : Nat) (now : Int) : Lesson :=
  let l1 := if u == l.teacher
    then { l with teacher_confirmed_completion := true } else l
  let l2 := if u == l.student
    then { l1 with student_confirmed_completion := true } else l1
  if l2.teacher_confirmed_completion && l2.student_confirmed_completion then
    { l2 with status := .completed, completion_confirmed_at := some now }
  else l2

/-- The endpoint `confirm_lesson_completion`: fetch, mutate via
`applyConfirm`, persist with `Lesson.save`.  A `ValidationError` raised by
`save` propagates out of the view, so nothing is persisted in that case. -/
def confirmLessonCompletion (db : List Lesson) (lessonId userId : Nat)
    (now : Int) : List Lesson :=
  match findLesson db lessonId with
  | none => db
  | some lesson => updateOr db (applyConfirm lesson userId now)

/-- In-memory part of `Lesson.confirm_completion_by_teacher`
(`scheduling/models.py` lines 162-174); `if rating:` keeps the old value for
`None` and for the falsy `0`.  (The optional comment is a display-only
column and is not carried.) -/
def applyConfirmTeacher (l : Lesson) (rating : Option Int) (now : Int) :
    Lesson :=
  let newRating : Option Int := match rating with
    | some r => if r != 0 then some r else l.teacher_rating
    | none => l.teacher_rating
  let l1 := { l with
    teacher_confirmed_completion := true
    teacher_rating := newRating }
  if l1.teacher_confirmed_completion && l1.student_confirmed_completion then
    { l1 with status := .completed, completion_confirmed_at := some now }
  else l1

/-- In-memory part of `Lesson.confirm_completion_by_student`
(`scheduling/models.py` lines 176-188). -/
def applyConfirmStudent (l : Lesson) (rating : Option Int) (now : Int) :
    Lesson :=
  let newRating : Option Int := match rating with
    | some r => if r != 0 then some r else l.student_rating
    | none => l.student_rating
  let l1 := { l with
    student_confirmed_completion := true
    student_rating := newRating }
  if l1.teacher_confirmed_completion && l1.student_confirmed_completion then
    { l1 with status := .completed, completion_confirmed_at := some now }
  else l1

/-- `Lesson.confirm_completion_by_teacher` including its `self.save()`. -/
def confirmCompletionByTeacher (db : List Lesson) (lessonId : Nat)
    (rating : Option Int) (now : Int) : List Lesson :=
  match findLesson db lessonId with
  | none => db
  | some lesson => updateOr db (applyConfirmTeacher lesson rating now)

/-- `Lesson.confirm_completion_by_student` including its `self.save()`. -/
def confirmCompletionByStudent (db : List Lesson) (lessonId : Nat)
    (rating : Option Int) (now : Int) : List Lesson :=
  match findLesson db lessonId with
  | none => db
  | some lesson => updateOr db (applyConfirmStudent lesson rating now)

/-- `cancel_lesson` (`scheduling/views.py` lines 875-913): set status
CANCELLED and save; a save exception is caught and nothing is persisted. -/
def cancelLesson (db : List Lesson) (lessonId : Nat) : List Lesson :=
  match findLesson db lessonId with
  | none => db
  | some lesson => updateOr db { lesson with status := .cancelled }

/-- `rate_lesson` (`scheduling/views.py` lines 356-389): participant-only,
guarded by `can_be_rated` (status COMPLETED and `now > end_time`), rating in
[1,10]; stores the rating for the matching side (`if user == lesson.teacher
... else student`). -/
def rateLesson (db : List Lesson) (lessonId userId : Nat) (rating : Int)
    (now : Int) : List Lesson :=
  match findLesson db lessonId with
  | none => db
  | some l =>
      if ¬ (userId = l.teacher ∨ userId = l.student) then db
      else if ¬ (l.status = .completed ∧ now > l.end_time) then db
      else if rating < 1 ∨ rating > 10 then db
      else
        updateOr db (if userId == l.teacher
          then { l with teacher_rating := some rating }
          else { l with student_rating := some rating })

/-- Every mutation of the lesson table reachable through the source's views
and model methods. -/
inductive LessonOp
  | create (newId teacher student : Nat)
      (naiveStart tzOffset durationMinutes : Int) (zoomLink : String)
  | edit (lessonId teacher student : Nat)
      (naiveStart tzOffset durationMinutes : Int) (zoomLink : String)
  | reschedule (lessonId : Nat) (naiveStart tzOffset : Int)
      (newEndNaive : Option Int)
  | cancel (lessonId : Nat)
  | sweep
  | confirmEndpoint (lessonId userId : Nat)
  | confirmTeacher (lessonId : Nat) (rating : Option Int)
  | confirmStudent (lessonId : Nat) (rating : Option Int)
  | rate (lessonId userId : Nat) (rating : Int)

/-- Dispatch one operation against the lesson table.  `edit` is
`LessonUpdateView`: the same `LessonForm` validation as create, applied in
place (the form's fields do not include `status`, so the edited row keeps
its status). -/
def applyLessonOp (db : List Lesson) (now : Int) : LessonOp → List Lesson
  | .create nid t s ns tz dur z =>
      match createLessonViaForm db nid t s ns tz dur z now with
      | .ok db' => db'
      | .error _ => db
  | .edit i t s ns tz dur z =>
      match findLesson db i with
      | none => db
      | some l =>
          match LessonForm.clean db (some i) t ns tz dur z now with
          | .error _ => db
          | .ok (st, en) =>
              updateOr db { l with
                teacher := t
                student := s
                start_time := st
                end_time := en }
  | .reschedule i ns tz ne => (rescheduleLesson db i ns tz ne now).2
  | .cancel i => cancelLesson db i
  | .sweep => autoCompleteElapsedLessons db now
  | .confirmEndpoint i u => confirmLessonCompletion db i u now
  | .confirmTeacher i r => confirmCompletionByTeacher db i r now
  | .confirmStudent i r => confirmCompletionByStudent db i r now
  | .rate i u r => rateLesson db i u r now

/-- The operations that set a confirmation flag of lesson `i`. -/
def isConfirmOp : LessonOp → Nat → Prop
  | .confirmEndpoint j _, i => j = i
  | .confirmTeacher j _, i => j = i
  | .confirmStudent j _, i => j = i
  | _, _ => False

/-- Maximum of a list of naturals via `foldl` (the `order_by('-version')`
query of `AssignmentSubmission.save` is used only for the top version). -/
def maxNat? (l : List Nat) : Option Nat :=
  l.foldl (fun a x => match a with | none => some x | some v => some (max v x)) none

/-- Result accumulator of the weekly-recurrence loop in
`LessonCreateView.form_valid`: counts of created and skipped copies, the
collected exception messages, and the lesson table. -/
structure RecurrenceResult where
  created : Nat
  skipped : Nat
  errors : List String
  db : List Lesson
deriving DecidableEq, Repr

/-- The i-th weekly copy built in `LessonCreateView.form_valid`: same
participants, window shifted by `i` weeks, status SCHEDULED, fresh row
(confirmation fields at their model defaults). -/
def recurrenceCopy (base : Lesson) (newId : Nat) (i : Nat) : Lesson :=
  { id := newId, teacher := base.teacher, student := base.student,
    start_time := base.start_time + (i : Int) * weekMinutes,
    end_time := base.end_time + (i : Int) * weekMinutes,
    status := .scheduled,
    teacher_confirmed_completion := false,
    student_confirmed_completion := false,
    completion_confirmed_at := none, teacher_rating := none,
    student_rating := none, original_start_time := none,
    original_end_time := none }

/-- One iteration of the recurrence loop: `copy.save()` under
`try/except` — on success count it created, on a `ValidationError` count it
skipped, record the reason and continue. -/
def recurrenceStep (base : Lesson) (freshIds : Nat → Nat)
    (acc : RecurrenceResult) (k : Nat) : RecurrenceResult :=
  let i := k + 1
  match insertLesson acc.db (recurrenceCopy base (freshIds i) i) with
  | .ok db' => { acc with created := acc.created + 1, db := db' }
  | .error m =>
      { acc with skipped := acc.skipped + 1, errors := acc.errors ++ [m] }

/-- The recurrence loop `for i in range(1, weeks + 1)` of
`LessonCreateView.form_valid`, run after the base lesson is already in the
table.  Each copy is persisted through `Lesson.save` only — model
validation, not the form's past-time and break checks. -/
def expandRecurrence (db : List Lesson) (base : Lesson) (weeks : Nat)
    (freshIds : Nat → Nat) : RecurrenceResult :=
  (List.range weeks).foldl (recurrenceStep base freshIds)
    { created := 0, skipped := 0, errors := [], db := db }

/-- A row of the feedback table.  Modelled from the spec (the
`LessonFeedback` model is referenced by views, admin and tests but not
declared in `scheduling/models.py`): one rating and comment per
`(lesson, user)`. -/
structure LessonFeedback where
  lesson : Nat
  user : Nat
  is_teacher : Bool
  rating : Int
  comment : String
deriving DecidableEq, Repr

/-- The request body of `feedback_submit` after parsing: `lesson_id`,
whether the raw `rating` value was present and truthy, the result of
`int(rating)` (`none` = `ValueError`), and the optional comment. -/
structure FeedbackPayload where
  lessonId : Option Nat
  ratingPresent : Bool
  ratingParsed : Option Int
  comment : String
deriving DecidableEq, Repr

/-- The distinct responses of `feedback_submit`, in source order. -/
inductive FeedbackResponse
  | missingParams
  | invalidRating
  | ratingOutOfRange
  | notFound
  | forbidden
  | cannotRateNow
  | alreadyExists
  | ok
deriving DecidableEq, Repr

/-- The HTTP status each response of `feedback_submit` carries. -/
def feedbackStatusCode : FeedbackResponse → Nat
  | .missingParams => 400
  | .invalidRating => 400
  | .ratingOutOfRange => 400
  | .notFound => 404
  | .forbidden => 403
  | .cannotRateNow => 400
  | .alreadyExists => 409
  | .ok => 200

/-- `feedback_submit` (`scheduling/views.py` lines 666-738), for an
authenticated user: required params, rating parse and range, lesson lookup,
student-only permission, completed-and-elapsed guard, duplicate check
(`LessonFeedback.objects.filter(lesson=..., user=...).exists()` → 409),
then the insert. -/
def feedback_submit (lessons : List Lesson) (fdb : List LessonFeedback)
    (p : FeedbackPayload) (userId : Nat) (userIsStudent : Bool)
    (now : Int) : FeedbackResponse × List LessonFeedback :=
  match p.lessonId, p.ratingPresent with
  | none, _ => (.missingParams, fdb)
  | some _, false => (.missingParams, fdb)
  | some lid, true =>
      match p.ratingParsed with
      | none => (.invalidRating, fdb)
      | some r =>
          if r < 1 ∨ r > 10 then (.ratingOutOfRange, fdb)
          else
            match findLesson lessons lid with
            | none => (.notFound, fdb)
            | some lesson =>
              if ¬ userIsStudent ∨ lesson.student ≠ userId then
                (.forbidden, fdb)
              else if lesson.status ≠ .completed ∨ now ≤ lesson.end_time then
                (.cannotRateNow, fdb)
              else if fdb.any fun fb => fb.lesson == lid && fb.user == userId
              then (.alreadyExists, fdb)
              else (.ok, fdb ++
                [{ lesson := lid, user := userId, is_teacher := false,
                   rating := r, comment := p.comment }])

/-- Number of stored feedback rows for a `(lesson, user)` pair. -/
def countFeedback (fdb : List LessonFeedback) (lid uid : Nat) : Nat :=
  (fdb.filter fun fb => fb.lesson == lid && fb.user == uid).length

/-- A row of the submission table, `AssignmentSubmission` in
`assignments/models.py` (file/comment columns are display-only and not
carried; the `mark_submitted` side effect on the parent assignment is
outside this table). -/
structure AssignmentSubmission where
  id : Nat
  assignment : Nat
  version : Nat
  is_final : Bool
deriving DecidableEq, Repr

/-- The version `AssignmentSubmission.save` assigns to a fresh row: max
existing version for the assignment plus one, or the field default 1 when
the assignment has no submissions yet. -/
def newVersion (db : List AssignmentSubmission) (a : Nat) : Nat :=
  match maxNat? ((db.filter fun s => s.assignment == a).map (·.version)) with
  | none => 1
  | some v => v + 1

/-- `AssignmentSubmission.save` on a fresh row (`assignments/models.py`
lines 150-169): when a previous submission for the assignment exists, set
version to max+1 and flip every final submission of that assignment to
non-final; then insert the new row with its caller-chosen `is_final`
(default `True`; the materials path of `AssignmentCreateView.form_valid`
passes `False`). -/
def createSubmission (db : List AssignmentSubmission) (a : Nat)
    (isFinal : Bool) (newId : Nat) : List AssignmentSubmission :=
  match maxNat? ((db.filter fun s => s.assignment == a).map (·.version)) with
  | none => db ++ [{ id := newId, assignment := a, version := 1,
                     is_final := isFinal }]
  | some v =>
      (db.map fun s =>
        if s.assignment == a && s.is_final then { s with is_final := false }
        else s) ++
      [{ id := newId, assignment := a, version := v + 1,
         is_final := isFinal }]

/-- `n` student submissions for assignment `a` created in order on an empty
table (ids 1..n; `fins` chooses each row's `is_final`). -/
def createMany (a : Nat) (fins : Nat → Bool) : Nat → List AssignmentSubmission
  | 0 => []
  | n + 1 => createSubmission (createMany a fins n) a (fins (n + 1)) (n + 1)

/-- Status of an assignment, `Assignment.AssignmentStatus` in
`assignments/models.py`. -/
inductive AssignmentStatus
  | assigned
  | in_progress
  | submitted
  | reviewed
  | completed
  | needs_revision
deriving DecidableEq, Repr

/-- A row of the assignment table (grading-relevant columns). -/
structure Assignment where
  id : Nat
  lessonTeacher : Option Nat
  student : Nat
  status : AssignmentStatus
  grade : Option Int
  teacher_comments : String
  reviewed_at : Option Int
deriving DecidableEq, Repr

/-- `Assignment.mark_reviewed` (`assignments/models.py` lines 95-103):
status REVIEWED, `reviewed_at` stamped; comments kept when the argument is
falsy, grade kept when `None`. -/
def mark_reviewed (a : Assignment) (teacherComments : String)
    (grade : Option Int) (now : Int) : Assignment :=
  { a with
    status := .reviewed
    reviewed_at := some now
    teacher_comments := if teacherComments ≠ "" then teacherComments
      else a.teacher_comments
    grade := (match grade with | some g => some g | none => a.grade) }

/-- The responses of `grade_assignment`, in source order. -/
inductive GradeResponse
  | permissionDenied
  | missingGrade
  | invalidGrade
  | ok (g : Int)
deriving DecidableEq, Repr

/-- `grade_assignment` (`assignments/views.py` lines 376-422): teachers and
methodists only; when the assignment's lesson has a different teacher, only
a methodist may grade; the raw grade must be present, parse as an int
(`gradeParsed`, `none` = `ValueError`) and lie in [1,10] — parse failure
and range failure raise and are caught by the same handler; on success
`mark_reviewed` persists grade, comments and the review timestamp. -/
def grade_assignment (a : Assignment) (userId : Nat)
    (userIsTeacher userIsMethodist : Bool) (gradePresent : Bool)
    (gradeParsed : Option Int) (teacherComments : String) (now : Int) :
    GradeResponse × Assignment :=
  if ¬ (userIsTeacher || userIsMethodist) then (.permissionDenied, a)
  else if (match a.lessonTeacher with
    | some t => t != userId && !userIsMethodist
    | none => false) then (.permissionDenied, a)
  else if ¬ gradePresent then (.missingGrade, a)
  else
    match gradeParsed with
    | none => (.invalidGrade, a)
    | some g =>
        if g < 1 ∨ g > 10 then (.invalidGrade, a)
        else (.ok g, mark_reviewed a teacherComments (some g) now)

/-- A SCHEDULED lesson of teacher 1 on minutes [600, 660), i.e. 10:00-11:00
of some day: the existing booking of Scenario A. -/
def teacherLesson600 : Lesson :=
  { id := 20, teacher := 1, student := 2, start_time := 600, end_time := 660,
    status := .scheduled,
    teacher_confirmed_completion := false, student_confirmed_completion := false,
    completion_confirmed_at := none, teacher_rating := none,
    student_rating := none, original_start_time := none,
    original_end_time := none }

/-- A SCHEDULED lesson of teacher 1 one week out, on minutes
[10080, 10140): the neighbour that the week-1 recurrence copy lands 10
minutes after. -/
def nextWeekLesson : Lesson :=
  { id := 100, teacher := 1, student := 5, start_time := 10080,
    end_time := 10140, status := .scheduled,
    teacher_confirmed_completion := false, student_confirmed_completion := false,
    completion_confirmed_at := none, teacher_rating := none,
    student_rating := none, original_start_time := none,
    original_end_time := none }

/-- The base lesson of the C4 counterexample, teacher 1 on [70, 130). -/
def recurrenceBase : Lesson :=
  { id := 0, teacher := 1, student := 2, start_time := 70, end_time := 130,
    status := .scheduled,
    teacher_confirmed_completion := false, student_confirmed_completion := false,
    completion_confirmed_at := none, teacher_rating := none,
    student_rating := none, original_start_time := none,
    original_end_time := none }

/-- A SCHEDULED lesson of teacher 1 occupying exactly the week-2 slot of
`recurrenceBase` ([20230, 20290)): the P9 conflict. -/
def week2Blocker : Lesson :=
  { id := 101, teacher := 1, student := 6, start_time := 20230,
    end_time := 20290, status := .scheduled,
    teacher_confirmed_completion := false, student_confirmed_completion := false,
    completion_confirmed_at := none, teacher_rating := none,
    student_rating := none, original_start_time := none,
    original_end_time := none }

/-- A COMPLETED lesson of teacher 1 and student 2 on [100, 160), for the
feedback claims. -/
def completedLesson : Lesson :=
  { id := 3, teacher := 1, student := 2, start_time := 100, end_time := 160,
    status := .completed,
    teacher_confirmed_completion := true, student_confirmed_completion := true,
    completion_confirmed_at := some 160, teacher_rating := none,
    student_rating := none, original_start_time := none,
    original_end_time := none }

/-- A concrete feedback request: lesson 3, rating 8, empty comment. -/
def feedbackPayload8 : FeedbackPayload :=
  { lessonId := some 3, ratingPresent := true, ratingParsed := some 8,
    comment := "" }

/-- The row `feedbackPayload8` stores for student 2. -/
def feedbackRow8 : LessonFeedback :=
  { lesson := 3, user := 2, is_teacher := false, rating := 8, comment := "" }

/-- A SUBMITTED assignment of student 2 whose lesson belongs to teacher 1. -/
def submittedAssignment : Assignment :=
  { id := 4, lessonTeacher := some 1, student := 2, status := .submitted,
    grade := none, teacher_comments := "", reviewed_at := none }

/-- `Lesson.clean` succeeding means no SCHEDULED/COMPLETED lesson of the same
teacher (other than the row itself) overlaps the candidate window. -/
theorem clean_ok_teacher_separated {db : List Lesson} {l : Lesson}
    (h : Lesson.clean db l = .ok ()) :
    ∀ x ∈ db, x.teacher = l.teacher → x.status.codeActive = true →
      x.id ≠ l.id → l.end_time ≤ x.start_time ∨ x.end_time ≤ l.start_time := by
  intro x hx ht hact hid
  unfold Lesson.clean at h
  split_ifs at h with h1 h2 h3
  by_contra hcon
  push_neg at hcon
  apply h2
  unfold teacherOverlapExists
  rw [List.any_eq_true]
  refine ⟨x, hx, ?_⟩
  simp only [Bool.and_eq_true, beq_iff_eq, bne_iff_ne, decide_eq_true_eq]
  exact ⟨⟨⟨⟨ht, by omega⟩, by omega⟩, hact⟩, hid⟩

/-- A looked-up lesson carries the looked-up primary key. -/
theorem findLesson_id {db : List Lesson} {i : Nat} {l : Lesson}
    (h : findLesson db i = some l) : l.id = i := by
  have := List.find?_some h
  simpa using this

/-- Looking up in a table transformed by a pk-preserving row function finds
the transformed row. -/
theorem findLesson_map (db : List Lesson) (f : Lesson → Lesson)
    (hf : ∀ x, (f x).id = x.id) (i : Nat) :
    findLesson (db.map f) i = (findLesson db i).map f := by
  unfold findLesson
  rw [List.find?_map]
  have hp : ((fun x : Lesson => x.id == i) ∘ f) = fun x : Lesson => x.id == i := by
    funext x
    simp [Function.comp, hf x]
  rw [hp]

/-- A row found in a table is still found after appending rows. -/
theorem findLesson_append {db ds : List Lesson} {i : Nat} {l : Lesson}
    (h : findLesson db i = some l) :
    findLesson (db ++ ds) i = some l := by
  unfold findLesson at *
  rw [List.find?_append, h]
  rfl

/-- A successful `Lesson.save` of an existing row rewrites exactly the rows
with that pk. -/
theorem updateLesson_ok {db : List Lesson} {l : Lesson} {db' : List Lesson}
    (h : updateLesson db l = .ok db') :
    db' = db.map fun x => if x.id == l.id then l else x := by
  unfold updateLesson at h
  cases hc : Lesson.clean db l <;> rw [hc] at h
  · cases h
  · injection h with h
    exact h.symm

/-- A successful `Lesson.save` of an existing row passed `Lesson.clean`. -/
theorem updateLesson_ok_clean {db : List Lesson} {l : Lesson}
    {db' : List Lesson} (h : updateLesson db l = .ok db') :
    Lesson.clean db l = .ok () := by
  unfold updateLesson at h
  cases hc : Lesson.clean db l
  case error e =>
    rw [hc] at h
    simp at h
  case ok u =>
    rfl

/-- After a successful `Lesson.save` of row `lnew`, looking up any pk finds
the previous row, rewritten to `lnew` when the pk matches. -/
theorem findLesson_after_update {db db' : List Lesson} {lnew : Lesson}
    (h : updateLesson db lnew = .ok db') (i : Nat) :
    findLesson db' i = (findLesson db i).map
      (fun x => if x.id == lnew.id then lnew else x) := by
  rw [updateLesson_ok h]
  refine findLesson_map db _ (fun x => ?_) i
  by_cases hb : x.id = lnew.id
  · simp [hb]
  · simp [hb]

/-- A successful `Lesson.save` of a fresh row appends exactly that row. -/
theorem insertLesson_ok {db : List Lesson} {l : Lesson} {db' : List Lesson}
    (h : insertLesson db l = .ok db') : db' = db ++ [l] := by
  unfold insertLesson at h
  cases hc : Lesson.clean db l
  case error e =>
    rw [hc] at h
    simp at h
  case ok u =>
    rw [hc] at h
    injection h with h
    exact h.symm

/-- The row-rewriting function of a save-as-update never changes a pk. -/
theorem updateRow_id (lnew x : Lesson) :
    ((if x.id == lnew.id then lnew else x).id = x.id) := by
  by_cases hb : x.id = lnew.id
  · simp [hb]
  · simp [hb]

/-- A guarded save leaves the table unchanged or applies the row rewrite. -/
theorem updateOr_cases (db : List Lesson) (lnew : Lesson) :
    updateOr db lnew = db ∨
    updateOr db lnew = db.map fun x => if x.id == lnew.id then lnew else x := by
  unfold updateOr
  cases hu : updateLesson db lnew
  case error e => left; rfl
  case ok db2 =>
    right
    exact updateLesson_ok hu

/-- A row found before a guarded save is afterwards found unchanged, or — if
its pk is the saved one — as the saved row. -/
theorem findLesson_updateOr_cases {db : List Lesson} {i : Nat} {l l' : Lesson}
    (hl : findLesson db i = some l) {lnew : Lesson}
    (hl' : findLesson (updateOr db lnew) i = some l') :
    l' = l ∨ (l.id = lnew.id ∧ l' = lnew) := by
  rcases updateOr_cases db lnew with hcase | hcase
  · rw [hcase, hl] at hl'
    left
    exact (Option.some.inj hl').symm
  · rw [hcase, findLesson_map db _ (updateRow_id lnew) i, hl] at hl'
    by_cases hb : l.id = lnew.id
    · right
      refine ⟨hb, ?_⟩
      simp only [Option.map_some', hb, beq_self_eq_true, if_true] at hl'
      exact (Option.some.inj hl').symm
    · left
      simp only [Option.map_some'] at hl'
      rw [if_neg (by simpa using hb)] at hl'
      exact (Option.some.inj hl').symm

/-- `applyConfirm` never changes the pk. -/
theorem applyConfirm_id (l : Lesson) (u : Nat) (now : Int) :
    (applyConfirm l u now).id = l.id := by
  unfold applyConfirm
  dsimp only
  split_ifs <;> rfl

/-- If both flags hold after `applyConfirm`, the lesson was flipped to
COMPLETED and stamped. -/
theorem applyConfirm_flags_complete (l : Lesson) (u : Nat) (now : Int)
    (ht : (applyConfirm l u now).teacher_confirmed_completion = true)
    (hs : (applyConfirm l u now).student_confirmed_completion = true) :
    (applyConfirm l u now).status = .completed ∧
    (applyConfirm l u now).completion_confirmed_at = some now := by
  unfold applyConfirm at *
  dsimp only at *
  split_ifs at * <;> simp_all

/-- A COMPLETED status after `applyConfirm` is either inherited or came from
both flags being set. -/
theorem applyConfirm_completed_source (l : Lesson) (u : Nat) (now : Int)
    (h : (applyConfirm l u now).status = .completed) :
    l.status = .completed ∨
    ((applyConfirm l u now).teacher_confirmed_completion = true ∧
     (applyConfirm l u now).student_confirmed_completion = true) := by
  unfold applyConfirm at *
  dsimp only at *
  split_ifs at * <;> simp_all

/-- `applyConfirmTeacher` never changes the pk. -/
theorem applyConfirmTeacher_id (l : Lesson) (r : Option Int) (now : Int) :
    (applyConfirmTeacher l r now).id = l.id := by
  unfold applyConfirmTeacher
  dsimp only
  split_ifs <;> rfl

/-- Both flags after `applyConfirmTeacher` mean COMPLETED plus stamp. -/
theorem applyConfirmTeacher_flags_complete (l : Lesson) (r : Option Int)
    (now : Int)
    (ht : (applyConfirmTeacher l r now).teacher_confirmed_completion = true)
    (hs : (applyConfirmTeacher l r now).student_confirmed_completion = true) :
    (applyConfirmTeacher l r now).status = .completed ∧
    (applyConfirmTeacher l r now).completion_confirmed_at = some now := by
  unfold applyConfirmTeacher at *
  dsimp only at *
  split_ifs at * <;> simp_all

/-- COMPLETED after `applyConfirmTeacher` is inherited or from both flags. -/
theorem applyConfirmTeacher_completed_source (l : Lesson) (r : Option Int)
    (now : Int)
    (h : (applyConfirmTeacher l r now).status = .completed) :
    l.status = .completed ∨
    ((applyConfirmTeacher l r now).teacher_confirmed_completion = true ∧
     (applyConfirmTeacher l r now).student_confirmed_completion = true) := by
  unfold applyConfirmTeacher at *
  dsimp only at *
  split_ifs at * <;> simp_all

/-- `applyConfirmStudent` never changes the pk. -/
theorem applyConfirmStudent_id (l : Lesson) (r : Option Int) (now : Int) :
    (applyConfirmStudent l r now).id = l.id := by
  unfold applyConfirmStudent
  dsimp only
  split_ifs <;> rfl

/-- Both flags after `applyConfirmStudent` mean COMPLETED plus stamp. -/
theorem applyConfirmStudent_flags_complete (l : Lesson) (r : Option Int)
    (now : Int)
    (ht : (applyConfirmStudent l r now).teacher_confirmed_completion = true)
    (hs : (applyConfirmStudent l r now).student_confirmed_completion = true) :
    (applyConfirmStudent l r now).status = .completed ∧
    (applyConfirmStudent l r now).completion_confirmed_at = some now := by
  unfold applyConfirmStudent at *
  dsimp only at *
  split_ifs at * <;> simp_all

/-- COMPLETED after `applyConfirmStudent` is inherited or from both flags. -/
theorem applyConfirmStudent_completed_source (l : Lesson) (r : Option Int)
    (now : Int)
    (h : (applyConfirmStudent l r now).status = .completed) :
    l.status = .completed ∨
    ((applyConfirmStudent l r now).teacher_confirmed_completion = true ∧
     (applyConfirmStudent l r now).student_confirmed_completion = true) := by
  unfold applyConfirmStudent at *
  dsimp only at *
  split_ifs at * <;> simp_all

/-- The sweep never changes a pk. -/
theorem applySweepOne_id (now : Int) (x : Lesson) :
    (applySweepOne now x).id = x.id := by
  unfold applySweepOne
  split <;> rfl

/-- The table after a reschedule call: unchanged, or a guarded save of the
rescheduled row found under the requested pk. -/
theorem rescheduleLesson_snd (db : List Lesson) (i0 : Nat)
    (ns tz : Int) (ne : Option Int) (now : Int) :
    (rescheduleLesson db i0 ns tz ne now).2 = db ∨
    ∃ l0, findLesson db i0 = some l0 ∧
      (rescheduleLesson db i0 ns tz ne now).2 =
        updateOr db (applyReschedule l0 (ns - tz)
          (resolveNewEnd l0 (ns - tz) ne tz)) := by
  unfold rescheduleLesson
  cases hf : findLesson db i0 with
  | none => left; rfl
  | some l0 =>
      dsimp only
      split_ifs with hpast
      · left; rfl
      · right
        refine ⟨l0, rfl, ?_⟩
        unfold updateOr
        cases updateLesson db (applyReschedule l0 (ns - tz)
            (resolveNewEnd l0 (ns - tz) ne tz)) <;> rfl

/-- A successful form-based create appends one fresh row. -/
theorem createLessonViaForm_ok {db : List Lesson} {nid t s : Nat}
    {ns tz dur : Int} {z : String} {now : Int} {db2 : List Lesson}
    (h : createLessonViaForm db nid t s ns tz dur z now = .ok db2) :
    ∃ lnew, db2 = db ++ [lnew] := by
  unfold createLessonViaForm at h
  split at h
  · exact absurd h (by simp)
  · dsimp only at h
    split at h
    · exact absurd h (by simp)
    · next db3 hins =>
        injection h with h
        exact ⟨_, h ▸ insertLesson_ok hins⟩

/-- The table after a rate call: unchanged (guard or save failure), or a
guarded save of the row carrying the new rating. -/
theorem rateLesson_cases (db : List Lesson) (j u : Nat) (r now : Int) :
    rateLesson db j u r now = db ∨
    ∃ l0, findLesson db j = some l0 ∧
      rateLesson db j u r now =
        updateOr db (if u == l0.teacher
          then { l0 with teacher_rating := some r }
          else { l0 with student_rating := some r }) := by
  unfold rateLesson
  cases hf : findLesson db j with
  | none => left; rfl
  | some l0 =>
      dsimp only
      set lnew := (if u == l0.teacher
        then { l0 with teacher_rating := some r }
        else { l0 with student_rating := some r }) with hlnew
      split_ifs with g1 g2 g3 <;>
        first
          | (left; rfl)
          | (right; exact ⟨l0, rfl, rfl⟩)

/-- An iff that is false on both sides, in the shape of the completion
characterisation. -/
theorem c2_false_iff {op : LessonOp} {i : Nat} {l' l : Lesson} {now : Int}
    (h1 : l'.status ≠ .completed)
    (h2 : ¬(isConfirmOp op i ∧ l' ≠ l ∧
        l'.teacher_confirmed_completion = true ∧
        l'.student_confirmed_completion = true ∧
        l'.completion_confirmed_at = some now))
    (h3 : ¬(op = .sweep ∧ (l.status = .scheduled ∨ l.status = .rescheduled) ∧
        l.end_time < now)) :
    (l'.status = .completed ↔
      ((isConfirmOp op i ∧ l' ≠ l ∧
        l'.teacher_confirmed_completion = true ∧
        l'.student_confirmed_completion = true ∧
        l'.completion_confirmed_at = some now) ∨
       (op = .sweep ∧ (l.status = .scheduled ∨ l.status = .rescheduled) ∧
        l.end_time < now))) := by
  constructor
  · intro h
    exact absurd h h1
  · rintro (hA | hB)
    · exact absurd hA h2
    · exact absurd hB h3

/-- The row a successful reschedule leaves in the table: originals filled
only if previously unset, new window, status RESCHEDULED. -/
theorem rescheduleLesson_success {db : List Lesson} {i : Nat}
    {ns tz now : Int} {ne : Option Int} {db' : List Lesson} {l : Lesson}
    (hfind : findLesson db i = some l)
    (h : rescheduleLesson db i ns tz ne now = (.success, db')) :
    findLesson db' i =
      some (applyReschedule l (ns - tz) (resolveNewEnd l (ns - tz) ne tz)) := by
  unfold rescheduleLesson at h
  rw [hfind] at h
  dsimp only at h
  split_ifs at h with hpast
  · simp at h
  · cases hu : updateLesson db (applyReschedule l (ns - tz)
        (resolveNewEnd l (ns - tz) ne tz)) with
    | error m => rw [hu] at h; simp at h
    | ok dbu =>
        rw [hu] at h
        have hdb : dbu = db' := congrArg Prod.snd h
        subst hdb
        rw [findLesson_after_update hu i, hfind]
        have hid : (l.id == (applyReschedule l (ns - tz)
            (resolveNewEnd l (ns - tz) ne tz)).id) = true :=
          beq_self_eq_true l.id
        simp [hid]
        intro hcon
        exact absurd rfl hcon

/-- C2: over every mutation path of the lesson table, a persisted lesson's
status newly becomes COMPLETED exactly when either a confirmation call leaves
it persisted with both confirmation flags true — the moment the second flag
is set — stamping `completion_confirmed_at` with the current time, or the
auto-completion sweep runs while it is still SCHEDULED or RESCHEDULED with
`end_time` earlier than the current time.  (`l' ≠ l` expresses that the
confirmation was actually persisted: when `Lesson.save` raises, no flag
becomes true.) -/
theorem claim_C2 (db : List Lesson) (now : Int) (op : LessonOp) (i : Nat)
    (l l' : Lesson)
    (hl : findLesson db i = some l)
    (hl' : findLesson (applyLessonOp db now op) i = some l')
    (hold : l.status ≠ .completed) :
    l'.status = .completed ↔
      ((isConfirmOp op i ∧ l' ≠ l ∧
        l'.teacher_confirmed_completion = true ∧
        l'.student_confirmed_completion = true ∧
        l'.completion_confirmed_at = some now) ∨
       (op = .sweep ∧ (l.status = .scheduled ∨ l.status = .rescheduled) ∧
        l.end_time < now)) := by
  cases op with
  | create nid t s ns tz dur z =>
      have hll : l' = l := by
        dsimp only [applyLessonOp] at hl'
        cases hc : createLessonViaForm db nid t s ns tz dur z now with
        | error e =>
            rw [hc, hl] at hl'
            exact (Option.some.inj hl').symm
        | ok db2 =>
            rw [hc] at hl'
            obtain ⟨lnew, hsh⟩ := createLessonViaForm_ok hc
            rw [hsh, findLesson_append hl] at hl'
            exact (Option.some.inj hl').symm
      subst hll
      exact c2_false_iff hold (fun ⟨_, hne, _⟩ => hne rfl)
        (fun ⟨hsw, _⟩ => LessonOp.noConfusion hsw)
  | edit j t s ns tz dur z =>
      dsimp only [applyLessonOp] at hl'
      cases hf : findLesson db j with
      | none =>
          rw [hf, hl] at hl'
          have hll : l' = l := (Option.some.inj hl').symm
          subst hll
          exact c2_false_iff hold (fun ⟨_, hne, _⟩ => hne rfl)
            (fun ⟨hsw, _⟩ => LessonOp.noConfusion hsw)
      | some l0 =>
          rw [hf] at hl'
          cases hfc : LessonForm.clean db (some j) t ns tz dur z now with
          | error e =>
              rw [hfc, hl] at hl'
              have hll : l' = l := (Option.some.inj hl').symm
              subst hll
              exact c2_false_iff hold (fun ⟨_, hne, _⟩ => hne rfl)
                (fun ⟨hsw, _⟩ => LessonOp.noConfusion hsw)
          | ok p =>
              rw [hfc] at hl'
              obtain ⟨st, en⟩ := p
              dsimp only at hl'
              rcases findLesson_updateOr_cases hl hl' with hll | ⟨hid, hll⟩
              · subst hll
                exact c2_false_iff hold (fun ⟨_, hne, _⟩ => hne rfl)
                  (fun ⟨hsw, _⟩ => LessonOp.noConfusion hsw)
              · have hid2 : l.id = l0.id := hid
                have hji : j = i := by
                  have h1 := findLesson_id hf
                  have h2 := findLesson_id hl
                  omega
                subst hji
                rw [hl] at hf
                have hl0 : l = l0 := Option.some.inj hf
                subst hl0
                subst hll
                exact c2_false_iff hold
                  (fun ⟨hcf, _⟩ => by simp [isConfirmOp] at hcf)
                  (fun ⟨hsw, _⟩ => LessonOp.noConfusion hsw)
  | reschedule j ns tz ne =>
      dsimp only [applyLessonOp] at hl'
      rcases rescheduleLesson_snd db j ns tz ne now with hsnd | ⟨l0, hf, hsnd⟩
      · rw [hsnd, hl] at hl'
        have hll : l' = l := (Option.some.inj hl').symm
        subst hll
        exact c2_false_iff hold (fun ⟨_, hne, _⟩ => hne rfl)
          (fun ⟨hsw, _⟩ => LessonOp.noConfusion hsw)
      · rw [hsnd] at hl'
        rcases findLesson_updateOr_cases hl hl' with hll | ⟨hid, hll⟩
        · subst hll
          exact c2_false_iff hold (fun ⟨_, hne, _⟩ => hne rfl)
            (fun ⟨hsw, _⟩ => LessonOp.noConfusion hsw)
        · subst hll
          exact c2_false_iff (fun hcon => LessonStatus.noConfusion hcon)
            (fun ⟨hcf, _⟩ => by simp [isConfirmOp] at hcf)
            (fun ⟨hsw, _⟩ => LessonOp.noConfusion hsw)
  | cancel j =>
      dsimp only [applyLessonOp, cancelLesson] at hl'
      cases hf : findLesson db j with
      | none =>
          rw [hf, hl] at hl'
          have hll : l' = l := (Option.some.inj hl').symm
          subst hll
          exact c2_false_iff hold (fun ⟨_, hne, _⟩ => hne rfl)
            (fun ⟨hsw, _⟩ => LessonOp.noConfusion hsw)
      | some l0 =>
          rw [hf] at hl'
          rcases findLesson_updateOr_cases hl hl' with hll | ⟨hid, hll⟩
          · subst hll
            exact c2_false_iff hold (fun ⟨_, hne, _⟩ => hne rfl)
              (fun ⟨hsw, _⟩ => LessonOp.noConfusion hsw)
          · subst hll
            exact c2_false_iff (fun hcon => LessonStatus.noConfusion hcon)
              (fun ⟨hcf, _⟩ => by simp [isConfirmOp] at hcf)
              (fun ⟨hsw, _⟩ => LessonOp.noConfusion hsw)
  | sweep =>
      dsimp only [applyLessonOp, autoCompleteElapsedLessons] at hl'
      rw [findLesson_map db _ (applySweepOne_id now) i, hl] at hl'
      have hll : l' = applySweepOne now l := (Option.some.inj hl').symm
      subst hll
      by_cases hc : ((l.status == LessonStatus.scheduled ||
          l.status == LessonStatus.rescheduled) &&
          decide (l.end_time < now)) = true
      · have hr : applySweepOne now l = { l with status := .completed } := by
          unfold applySweepOne
          rw [if_pos hc]
        rw [hr]
        have hcond : (l.status = .scheduled ∨ l.status = .rescheduled) ∧
            l.end_time < now := by
          simp only [Bool.and_eq_true, Bool.or_eq_true, beq_iff_eq,
            decide_eq_true_eq] at hc
          exact hc
        constructor
        · intro _
          exact Or.inr ⟨rfl, hcond.1, hcond.2⟩
        · intro _
          rfl
      · have hr : applySweepOne now l = l := by
          unfold applySweepOne
          rw [if_neg hc]
        rw [hr]
        exact c2_false_iff hold
          (fun ⟨hcf, _⟩ => by simp [isConfirmOp] at hcf)
          (fun ⟨_, hst, hend⟩ => hc (by
            simp only [Bool.and_eq_true, Bool.or_eq_true, beq_iff_eq,
              decide_eq_true_eq]
            exact ⟨hst, hend⟩))
  | confirmEndpoint j u =>
      dsimp only [applyLessonOp, confirmLessonCompletion] at hl'
      cases hf : findLesson db j with
      | none =>
          rw [hf, hl] at hl'
          have hll : l' = l := (Option.some.inj hl').symm
          subst hll
          exact c2_false_iff hold (fun ⟨_, hne, _⟩ => hne rfl)
            (fun ⟨hsw, _⟩ => LessonOp.noConfusion hsw)
      | some l0 =>
          rw [hf] at hl'
          rcases findLesson_updateOr_cases hl hl' with hll | ⟨hid, hll⟩
          · subst hll
            exact c2_false_iff hold (fun ⟨_, hne, _⟩ => hne rfl)
              (fun ⟨hsw, _⟩ => LessonOp.noConfusion hsw)
          · have hji : j = i := by
              have h1 := findLesson_id hf
              have h2 := findLesson_id hl
              rw [applyConfirm_id] at hid
              omega
            subst hji
            rw [hl] at hf
            have hl0 : l = l0 := Option.some.inj hf
            subst hl0
            subst hll
            constructor
            · intro hcomp
              rcases applyConfirm_completed_source l u now hcomp with hsrc | ⟨ht, hs⟩
              · exact absurd hsrc hold
              · refine Or.inl ⟨rfl, ?_, ht, hs,
                  (applyConfirm_flags_complete l u now ht hs).2⟩
                intro he
                exact hold (he ▸ hcomp)
            · rintro (⟨_, _, ht, hs, _⟩ | ⟨hsw, _⟩)
              · exact (applyConfirm_flags_complete l u now ht hs).1
              · exact LessonOp.noConfusion hsw
  | confirmTeacher j r =>
      dsimp only [applyLessonOp, confirmCompletionByTeacher] at hl'
      cases hf : findLesson db j with
      | none =>
          rw [hf, hl] at hl'
          have hll : l' = l := (Option.some.inj hl').symm
          subst hll
          exact c2_false_iff hold (fun ⟨_, hne, _⟩ => hne rfl)
            (fun ⟨hsw, _⟩ => LessonOp.noConfusion hsw)
      | some l0 =>
          rw [hf] at hl'
          rcases findLesson_updateOr_cases hl hl' with hll | ⟨hid, hll⟩
          · subst hll
            exact c2_false_iff hold (fun ⟨_, hne, _⟩ => hne rfl)
              (fun ⟨hsw, _⟩ => LessonOp.noConfusion hsw)
          · have hji : j = i := by
              have h1 := findLesson_id hf
              have h2 := findLesson_id hl
              rw [applyConfirmTeacher_id] at hid
              omega
            subst hji
            rw [hl] at hf
            have hl0 : l = l0 := Option.some.inj hf
            subst hl0
            subst hll
            constructor
            · intro hcomp
              rcases applyConfirmTeacher_completed_source l r now hcomp with
                hsrc | ⟨ht, hs⟩
              · exact absurd hsrc hold
              · refine Or.inl ⟨rfl, ?_, ht, hs,
                  (applyConfirmTeacher_flags_complete l r now ht hs).2⟩
                intro he
                exact hold (he ▸ hcomp)
            · rintro (⟨_, _, ht, hs, _⟩ | ⟨hsw, _⟩)
              · exact (applyConfirmTeacher_flags_complete l r now ht hs).1
              · exact LessonOp.noConfusion hsw
  | confirmStudent j r =>
      dsimp only [applyLessonOp, confirmCompletionByStudent] at hl'
      cases hf : findLesson db j with
      | none =>
          rw [hf, hl] at hl'
          have hll : l' = l := (Option.some.inj hl').symm
          subst hll
          exact c2_false_iff hold (fun ⟨_, hne, _⟩ => hne rfl)
            (fun ⟨hsw, _⟩ => LessonOp.noConfusion hsw)
      | some l0 =>
          rw [hf] at hl'
          rcases findLesson_updateOr_cases hl hl' with hll | ⟨hid, hll⟩
          · subst hll
            exact c2_false_iff hold (fun ⟨_, hne, _⟩ => hne rfl)
              (fun ⟨hsw, _⟩ => LessonOp.noConfusion hsw)
          · have hji : j = i := by
              have h1 := findLesson_id hf
              have h2 := findLesson_id hl
              rw [applyConfirmStudent_id] at hid
              omega
            subst hji
            rw [hl] at hf
            have hl0 : l = l0 := Option.some.inj hf
            subst hl0
            subst hll
            constructor
            · intro hcomp
              rcases applyConfirmStudent_completed_source l r now hcomp with
                hsrc | ⟨ht, hs⟩
              · exact absurd hsrc hold
              · refine Or.inl ⟨rfl, ?_, ht, hs,
                  (applyConfirmStudent_flags_complete l r now ht hs).2⟩
                intro he
                exact hold (he ▸ hcomp)
            · rintro (⟨_, _, ht, hs, _⟩ | ⟨hsw, _⟩)
              · exact (applyConfirmStudent_flags_complete l r now ht hs).1
              · exact LessonOp.noConfusion hsw
  | rate j u r =>
      dsimp only [applyLessonOp] at hl'
      rcases rateLesson_cases db j u r now with hcase | ⟨l0, hf, hcase⟩
      · rw [hcase, hl] at hl'
        have hll : l' = l := (Option.some.inj hl').symm
        subst hll
        exact c2_false_iff hold (fun ⟨_, hne, _⟩ => hne rfl)
          (fun ⟨hsw, _⟩ => LessonOp.noConfusion hsw)
      · rw [hcase] at hl'
        rcases findLesson_updateOr_cases hl hl' with hll | ⟨hid, hll⟩
        · subst hll
          exact c2_false_iff hold (fun ⟨_, hne, _⟩ => hne rfl)
            (fun ⟨hsw, _⟩ => LessonOp.noConfusion hsw)
        · have hid2 : l.id = l0.id := by
            rw [hid]
            split <;> rfl
          have hji : j = i := by
            have h1 := findLesson_id hf
            have h2 := findLesson_id hl
            omega
          subst hji
          rw [hl] at hf
          have hl0 : l = l0 := Option.some.inj hf
          subst hl0
          subst hll
          have hstat : (if u == l.teacher
              then { l with teacher_rating := some r }
              else { l with student_rating := some r }).status = l.status := by
            split <;> rfl
          refine c2_false_iff ?_
            (fun ⟨hcf, _⟩ => by simp [isConfirmOp] at hcf)
            (fun ⟨hsw, _⟩ => LessonOp.noConfusion hsw)
          rw [hstat]
          exact hold

/-- Witness for `claim_C2`: the teacher confirming `cwLesson` (whose student
already confirmed) at time 200 completes it. -/
theorem claim_C2_witness :
    cwLesson'.status = .completed ↔
      ((isConfirmOp (.confirmEndpoint 7 1) 7 ∧ cwLesson' ≠ cwLesson ∧
        cwLesson'.teacher_confirmed_completion = true ∧
        cwLesson'.student_confirmed_completion = true ∧
        cwLesson'.completion_confirmed_at = some 200) ∨
       (LessonOp.confirmEndpoint 7 1 = .sweep ∧
        (cwLesson.status = .scheduled ∨ cwLesson.status = .rescheduled) ∧
        cwLesson.end_time < 200)) :=
  claim_C2 [cwLesson] 200 (.confirmEndpoint 7 1) 7 cwLesson cwLesson'
    (by decide) (by decide) (by decide)

/-- `Lesson.clean` succeeds exactly when the duration bound holds and both
overlap queries are empty. -/
theorem clean_ok_iff (db : List Lesson) (l : Lesson) :
    Lesson.clean db l = .ok () ↔
      (¬ l.end_time - l.start_time < minDurationMinutes ∧
       teacherOverlapExists db l = false ∧
       studentOverlapExists db l = false) := by
  unfold Lesson.clean
  split_ifs with h1 h2 h3 <;> simp_all

/-- `Lesson.clean` only looks at pk, participants and window of the cleaned
row, so it agrees on rows equal in those fields. -/
theorem clean_core_congr (db : List Lesson) (l' l : Lesson)
    (hid : l'.id = l.id) (ht : l'.teacher = l.teacher)
    (hs : l'.student = l.student) (h1 : l'.start_time = l.start_time)
    (h2 : l'.end_time = l.end_time) :
    Lesson.clean db l' = Lesson.clean db l := by
  unfold Lesson.clean teacherOverlapExists studentOverlapExists
  rw [hid, ht, hs, h1, h2]

/-- Congruence of `List.any` under a pointwise-equal predicate. -/
theorem anyCongrMem {α : Type} {p q : α → Bool} :
    ∀ db : List α, (∀ x ∈ db, p x = q x) → db.any p = db.any q := by
  intro db h
  induction db with
  | nil => rfl
  | cons y ys ih =>
      simp only [List.any_cons]
      rw [h y (List.mem_cons_self y ys),
        ih fun x hx => h x (List.mem_cons_of_mem y hx)]

/-- Rewriting the rows that share the cleaned row's pk does not change the
teacher-overlap query: those rows are excluded by `.exclude(pk=...)`. -/
theorem teacherOverlap_map_self (db : List Lesson) (lnew l' : Lesson)
    (hid : l'.id = lnew.id) :
    teacherOverlapExists
      (db.map fun x => if x.id == lnew.id then lnew else x) l' =
    teacherOverlapExists db l' := by
  unfold teacherOverlapExists
  rw [List.any_map]
  apply anyCongrMem
  intro x hx
  by_cases hb : x.id = lnew.id
  · have h1 : (lnew.id != l'.id) = false := by simp [hid]
    have h2 : (x.id != l'.id) = false := by simp [hid, hb]
    simp only [Function.comp_apply, hb, beq_self_eq_true, if_true]
    simp [h1, h2]
  · simp only [Function.comp_apply]
    rw [if_neg (by simpa using hb)]

/-- Same for the student-overlap query. -/
theorem studentOverlap_map_self (db : List Lesson) (lnew l' : Lesson)
    (hid : l'.id = lnew.id) :
    studentOverlapExists
      (db.map fun x => if x.id == lnew.id then lnew else x) l' =
    studentOverlapExists db l' := by
  unfold studentOverlapExists
  rw [List.any_map]
  apply anyCongrMem
  intro x hx
  by_cases hb : x.id = lnew.id
  · have h1 : (lnew.id != l'.id) = false := by simp [hid]
    have h2 : (x.id != l'.id) = false := by simp [hid, hb]
    simp only [Function.comp_apply, hb, beq_self_eq_true, if_true]
    simp [h1, h2]
  · simp only [Function.comp_apply]
    rw [if_neg (by simpa using hb)]

/-- `Lesson.clean` of a row is unaffected by a save-as-update of a row with
the cleaned row's own pk. -/
theorem clean_map_self (db : List Lesson) (lnew l' : Lesson)
    (hid : l'.id = lnew.id) :
    Lesson.clean (db.map fun x => if x.id == lnew.id then lnew else x) l' =
    Lesson.clean db l' := by
  unfold Lesson.clean
  rw [teacherOverlap_map_self db lnew l' hid,
    studentOverlap_map_self db lnew l' hid]

/-- `applyConfirm` keeps pk, participants and window. -/
theorem applyConfirm_core (l : Lesson) (u : Nat) (now : Int) :
    (applyConfirm l u now).id = l.id ∧
    (applyConfirm l u now).teacher = l.teacher ∧
    (applyConfirm l u now).student = l.student ∧
    (applyConfirm l u now).start_time = l.start_time ∧
    (applyConfirm l u now).end_time = l.end_time := by
  unfold applyConfirm
  dsimp only
  split_ifs <;> exact ⟨rfl, rfl, rfl, rfl, rfl⟩

/-- A confirmation by the lesson's own teacher leaves the teacher flag set. -/
theorem applyConfirm_teacher_self (l : Lesson) (now : Int) :
    (applyConfirm l l.teacher now).teacher_confirmed_completion = true := by
  unfold applyConfirm
  dsimp only
  split_ifs <;> simp_all

/-- A confirmation by the lesson's own student, when the teacher flag is
already set, completes and stamps the lesson. -/
theorem applyConfirm_student_completes (l : Lesson) (now : Int)
    (ht : l.teacher_confirmed_completion = true) :
    (applyConfirm l l.student now).teacher_confirmed_completion = true ∧
    (applyConfirm l l.student now).student_confirmed_completion = true ∧
    (applyConfirm l l.student now).status = .completed ∧
    (applyConfirm l l.student now).completion_confirmed_at = some now := by
  unfold applyConfirm
  dsimp only
  split_ifs <;> simp_all

/-- C10 counterexample: the claim's universal "for every lesson in any
status" fails when `Lesson.save`'s model validation rejects the row: the
RESCHEDULED lesson on a window occupied by a SCHEDULED lesson of the same
teacher (a reachable state, cf. the C1 counterexample) stays RESCHEDULED
after its teacher (user 1) and student (user 2) both hit the confirmation
endpoint. -/
theorem claim_C10_counterexample :
    rescheduledLesson.teacher = 1 ∧ rescheduledLesson.student = 2 ∧
    findLesson (confirmLessonCompletion (confirmLessonCompletion
      [rescheduledLesson, clashingLesson] 0 1 200) 0 2 200) 0 =
      some rescheduledLesson ∧
    rescheduledLesson.status ≠ .completed ∧
    rescheduledLesson.completion_confirmed_at = none := by
  decide

/-- One successful confirmation call, written as the row rewrite it
performs. -/
theorem confirmLessonCompletion_eq (db : List Lesson) (i u : Nat) (now : Int)
    (l0 : Lesson) (hf : findLesson db i = some l0)
    (hcl : Lesson.clean db (applyConfirm l0 u now) = .ok ()) :
    confirmLessonCompletion db i u now =
      db.map fun x =>
        if x.id == (applyConfirm l0 u now).id then applyConfirm l0 u now
        else x := by
  unfold confirmLessonCompletion
  rw [hf]
  dsimp only
  unfold updateOr updateLesson
  rw [hcl]

/-- C10 amended: provided the lesson's row passes `Lesson.clean` at save
time, the endpoint consults neither `can_be_confirmed` nor the status nor
the end time: for a lesson in any status (including CANCELLED) at any
current instants (even before the lesson's end), the teacher confirming and
then the student confirming leaves the lesson COMPLETED with
`completion_confirmed_at` stamped at the second confirmation. -/
theorem claim_C10_amended (db : List Lesson) (i uT uS : Nat)
    (now1 now2 : Int) (l : Lesson)
    (hl : findLesson db i = some l)
    (hT : uT = l.teacher) (hS : uS = l.student)
    (hclean : Lesson.clean db l = .ok ()) :
    ∃ lf, findLesson
        (confirmLessonCompletion (confirmLessonCompletion db i uT now1)
          i uS now2) i = some lf ∧
      lf.teacher_confirmed_completion = true ∧
      lf.student_confirmed_completion = true ∧
      lf.status = .completed ∧
      lf.completion_confirmed_at = some now2 := by
  subst hT
  subst hS
  obtain ⟨hid1, hte1, hst1, hs1, he1⟩ := applyConfirm_core l l.teacher now1
  have hclean1 : Lesson.clean db (applyConfirm l l.teacher now1) = .ok () := by
    rw [clean_core_congr db _ l hid1 hte1 hst1 hs1 he1]
    exact hclean
  have hdb1 := confirmLessonCompletion_eq db i l.teacher now1 l hl hclean1
  have hf1 : findLesson (confirmLessonCompletion db i l.teacher now1) i =
      some (applyConfirm l l.teacher now1) := by
    rw [hdb1, findLesson_map db _ (updateRow_id _) i, hl]
    simp [hid1]
  obtain ⟨hid2, hte2, hst2, hs2, he2⟩ :=
    applyConfirm_core (applyConfirm l l.teacher now1) l.student now2
  have hstu : l.student = (applyConfirm l l.teacher now1).student := hst1.symm
  have hclean2 : Lesson.clean (confirmLessonCompletion db i l.teacher now1)
      (applyConfirm (applyConfirm l l.teacher now1) l.student now2) =
      .ok () := by
    rw [hdb1, clean_map_self db _ _ (by rw [hid2]),
      clean_core_congr _ _ l (by rw [hid2, hid1]) (by rw [hte2, hte1])
        (by rw [hst2, hst1]) (by rw [hs2, hs1]) (by rw [he2, he1])]
    exact hclean
  have hdb2 := confirmLessonCompletion_eq
    (confirmLessonCompletion db i l.teacher now1) i l.student now2
    (applyConfirm l l.teacher now1) hf1 hclean2
  have hf2 : findLesson (confirmLessonCompletion
      (confirmLessonCompletion db i l.teacher now1) i l.student now2) i =
      some (applyConfirm (applyConfirm l l.teacher now1) l.student now2) := by
    rw [hdb2, findLesson_map _ _ (updateRow_id _) i, hf1]
    simp [hid2, hid1]
  rw [hstu]
  rw [hstu] at hf2
  exact ⟨_, hf2, applyConfirm_student_completes
    (applyConfirm l l.teacher now1) now2 (applyConfirm_teacher_self l now1)⟩

/-- Witness for `claim_C10_amended`: a CANCELLED lesson whose end (minute
160) is still in the future is completed by confirmations at minutes 50 and
60. -/
theorem claim_C10_amended_witness :
    ∃ lf, findLesson
        (confirmLessonCompletion (confirmLessonCompletion
          [cancelledLesson] 9 1 50) 9 2 60) 9 = some lf ∧
      lf.teacher_confirmed_completion = true ∧
      lf.student_confirmed_completion = true ∧
      lf.status = .completed ∧
      lf.completion_confirmed_at = some 60 :=
  claim_C10_amended [cancelledLesson] 9 1 2 50 60 cancelledLesson
    (by decide) (by decide) (by decide) (by decide)

/-- `LessonForm.clean` rejects a start instant before now, first of all its
checks. -/
theorem formClean_past (db : List Lesson) (pk : Option Nat) (t : Nat)
    (ns tz dur : Int) (z : String) (now : Int) (h : ns - tz < now) :
    LessonForm.clean db pk t ns tz dur z now = .error .pastTime := by
  unfold LessonForm.clean
  dsimp only
  rw [if_pos h]

/-- C5: a timezone-normalized start instant earlier than the current instant
is always rejected with the past-time error and nothing is persisted — by
`LessonForm.clean` (create and edit), by the whole create path, and by
`reschedule_lesson`, which returns the table unchanged. -/
theorem claim_C5 :
    (∀ (db : List Lesson) (pk : Option Nat) (t : Nat) (ns tz dur : Int)
       (z : String) (now : Int), ns - tz < now →
       LessonForm.clean db pk t ns tz dur z now = .error .pastTime) ∧
    (∀ (db : List Lesson) (nid t s : Nat) (ns tz dur : Int) (z : String)
       (now : Int), ns - tz < now →
       createLessonViaForm db nid t s ns tz dur z now =
         .error (.formError .pastTime)) ∧
    (∀ (db : List Lesson) (i : Nat) (ns tz : Int) (ne : Option Int)
       (now : Int) (l : Lesson), findLesson db i = some l → ns - tz < now →
       rescheduleLesson db i ns tz ne now = (.pastTime, db)) := by
  refine ⟨formClean_past, ?_, ?_⟩
  · intro db nid t s ns tz dur z now h
    unfold createLessonViaForm
    rw [formClean_past db none t ns tz dur z now h]
  · intro db i ns tz ne now l hfind h
    unfold rescheduleLesson
    rw [hfind]
    dsimp only
    rw [if_pos h]

/-- Witness for `claim_C5`: start instant 5 with current time 10. -/
theorem claim_C5_witness :
    LessonForm.clean [] none 1 5 0 60 "z" 10 = .error .pastTime ∧
    createLessonViaForm [] 50 1 2 5 0 60 "z" 10 =
      .error (.formError .pastTime) ∧
    rescheduleLesson [freshLesson] 7 5 0 none 10 = (.pastTime, [freshLesson]) :=
  ⟨claim_C5.1 [] none 1 5 0 60 "z" 10 (by decide),
   claim_C5.2.1 [] 50 1 2 5 0 60 "z" 10 (by decide),
   claim_C5.2.2 [freshLesson] 7 5 0 none 10 freshLesson (by decide)
     (by decide)⟩

/-- C3: the teacher-break validation of `LessonForm.clean`.  With the past
check passed: if the latest SCHEDULED/COMPLETED lesson ending at or before
the proposed start ends less than 15 minutes before it, the proposal is
rejected naming that end time — this check runs first, regardless of the
next neighbour; otherwise, if the earliest such lesson starting at or after
the proposed end starts less than 15 minutes after it, the proposal is
rejected naming that start time; with both neighbour gaps at least 15
minutes (and a meeting link), the cleaned window is accepted.  Concretely, a
10:00-11:00 lesson (minutes 600-660) makes an 11:10-12:00 proposal
(670-720) rejected naming 11:00, while 11:15-12:00 (675-720) passes. -/
theorem claim_C3 :
    (∀ (db : List Lesson) (t : Nat) (ns tz dur : Int) (z : String)
       (now : Int) (p : Int),
      ¬ ns - tz < now →
      latestPrevEnd db t (ns - tz) none = some p →
      ns - tz - p < breakMinutes →
      LessonForm.clean db none t ns tz dur z now =
        .error (.breakBeforePrev p)) ∧
    (∀ (db : List Lesson) (t : Nat) (ns tz dur : Int) (z : String)
       (now : Int) (q : Int),
      ¬ ns - tz < now →
      (∀ p, latestPrevEnd db t (ns - tz) none = some p →
        ¬ ns - tz - p < breakMinutes) →
      earliestNextStart db t (ns - tz + dur) none = some q →
      q - (ns - tz + dur) < breakMinutes →
      LessonForm.clean db none t ns tz dur z now =
        .error (.breakAfterNext q)) ∧
    (∀ (db : List Lesson) (t : Nat) (ns tz dur : Int) (z : String)
       (now : Int),
      ¬ ns - tz < now →
      (∀ p, latestPrevEnd db t (ns - tz) none = some p →
        ¬ ns - tz - p < breakMinutes) →
      (∀ q, earliestNextStart db t (ns - tz + dur) none = some q →
        ¬ q - (ns - tz + dur) < breakMinutes) →
      z ≠ "" →
      LessonForm.clean db none t ns tz dur z now =
        .ok (ns - tz, ns - tz + dur)) ∧
    LessonForm.clean [teacherLesson600] none 1 670 0 50 "z" 0 =
      .error (.breakBeforePrev 660) ∧
    LessonForm.clean [teacherLesson600] none 1 675 0 45 "z" 0 =
      .ok (675, 720) := by
  refine ⟨?_, ?_, ?_, by decide, by decide⟩
  · intro db t ns tz dur z now p hpast hp hviol
    unfold LessonForm.clean
    dsimp only
    rw [if_neg hpast, hp]
    dsimp only
    rw [if_pos hviol]
  · intro db t ns tz dur z now q hpast hprev hq hviol
    unfold LessonForm.clean
    dsimp only
    rw [if_neg hpast]
    cases hp : latestPrevEnd db t (ns - tz) none with
    | none =>
        dsimp only
        rw [hq]
        dsimp only
        rw [if_pos hviol]
    | some p =>
        dsimp only
        rw [if_neg (hprev p hp), hq]
        dsimp only
        rw [if_pos hviol]
  · intro db t ns tz dur z now hpast hprev hnext hz
    unfold LessonForm.clean
    dsimp only
    rw [if_neg hpast]
    cases hp : latestPrevEnd db t (ns - tz) none with
    | none =>
        dsimp only
        cases hq : earliestNextStart db t (ns - tz + dur) none with
        | none =>
            dsimp only
            rw [if_neg hz]
        | some q =>
            dsimp only
            rw [if_neg (hnext q hq), if_neg hz]
    | some p =>
        dsimp only
        rw [if_neg (hprev p hp)]
        cases hq : earliestNextStart db t (ns - tz + dur) none with
        | none =>
            dsimp only
            rw [if_neg hz]
        | some q =>
            dsimp only
            rw [if_neg (hnext q hq), if_neg hz]

/-- Witness for `claim_C3`: the 11:10-12:00 rejection derived from the
previous-neighbour component at concrete input. -/
theorem claim_C3_witness :
    LessonForm.clean [teacherLesson600] none 1 670 0 50 "z" 0 =
      .error (.breakBeforePrev 660) :=
  claim_C3.1 [teacherLesson600] 1 670 0 50 "z" 0 660 (by decide) (by decide)
    (by decide)

/-- Each recurrence iteration adds one to created or to skipped, and a skip
appends exactly one error message. -/
theorem recurrence_counts_aux (base : Lesson) (f : Nat → Nat) :
    ∀ (ks : List Nat) (acc : RecurrenceResult),
      ((ks.foldl (recurrenceStep base f) acc).created +
        (ks.foldl (recurrenceStep base f) acc).skipped =
        acc.created + acc.skipped + ks.length) ∧
      (acc.skipped = acc.errors.length →
        (ks.foldl (recurrenceStep base f) acc).skipped =
        (ks.foldl (recurrenceStep base f) acc).errors.length) := by
  intro ks
  induction ks with
  | nil =>
      intro acc
      exact ⟨by simp, fun h => h⟩
  | cons k ks ih =>
      intro acc
      simp only [List.foldl_cons, List.length_cons]
      constructor
      · have h1 := (ih (recurrenceStep base f acc k)).1
        have h2 : (recurrenceStep base f acc k).created +
            (recurrenceStep base f acc k).skipped =
            acc.created + acc.skipped + 1 := by
          unfold recurrenceStep
          dsimp only
          cases insertLesson acc.db (recurrenceCopy base (f (k + 1)) (k + 1))
            <;> dsimp <;> omega
        omega
      · intro h
        apply (ih (recurrenceStep base f acc k)).2
        unfold recurrenceStep
        dsimp only
        cases insertLesson acc.db (recurrenceCopy base (f (k + 1)) (k + 1)) with
        | ok db2 => exact h
        | error m => simp [h]

/-- C4 counterexample: recurrence instances are not validated with the full
single-lesson validation.  With a lesson one week out on [10080, 10140),
the base lesson on [70, 130) passes the full create path; its single weekly
copy lands on [10150, 10210), only 10 minutes after the existing lesson's
end — `LessonForm.clean` rejects that exact slot — yet the recurrence loop
creates it (created 1, skipped 0), because copies run only `Lesson.clean`. -/
theorem claim_C4_counterexample :
    createLessonViaForm [nextWeekLesson] 0 1 2 70 0 60 "z" 0 =
      .ok [nextWeekLesson, recurrenceBase] ∧
    (expandRecurrence [nextWeekLesson, recurrenceBase] recurrenceBase 1
      (fun i => 200 + i)).created = 1 ∧
    (expandRecurrence [nextWeekLesson, recurrenceBase] recurrenceBase 1
      (fun i => 200 + i)).skipped = 0 ∧
    LessonForm.clean [nextWeekLesson, recurrenceBase] none 1 10150 0 60
      "z" 0 = .error (.breakBeforePrev 10140) := by
  decide

/-- C4 amended: each recurrence instance is validated independently by
`Lesson.save`'s model validation only (minimum duration and teacher/student
overlap against SCHEDULED/COMPLETED lessons; not the form's past-time or
15-minute-break checks); a failing instance is recorded as skipped with its
reason and the loop continues, so created + skipped always equals the
requested repeat count and every skip reports one reason.  In the P9
scenario — repeat 4 with only the week-2 slot taken by an overlapping
lesson of the same teacher — exactly the week-1, week-3 and week-4 copies
are created and one skip with the conflict reason is reported. -/
theorem claim_C4_amended :
    (∀ (db : List Lesson) (base : Lesson) (weeks : Nat) (f : Nat → Nat),
      (expandRecurrence db base weeks f).created +
        (expandRecurrence db base weeks f).skipped = weeks ∧
      (expandRecurrence db base weeks f).skipped =
        (expandRecurrence db base weeks f).errors.length) ∧
    ((expandRecurrence [week2Blocker, recurrenceBase] recurrenceBase 4
        (fun i => 300 + i)).created = 3 ∧
     (expandRecurrence [week2Blocker, recurrenceBase] recurrenceBase 4
        (fun i => 300 + i)).skipped = 1 ∧
     (expandRecurrence [week2Blocker, recurrenceBase] recurrenceBase 4
        (fun i => 300 + i)).errors =
        ["Teacher has conflicting lesson at this time"] ∧
     (expandRecurrence [week2Blocker, recurrenceBase] recurrenceBase 4
        (fun i => 300 + i)).db =
        [week2Blocker, recurrenceBase,
         recurrenceCopy recurrenceBase 301 1,
         recurrenceCopy recurrenceBase 303 3,
         recurrenceCopy recurrenceBase 304 4]) := by
  constructor
  · intro db base weeks f
    have h := recurrence_counts_aux base f (List.range weeks)
      { created := 0, skipped := 0, errors := [], db := db }
    refine ⟨?_, ?_⟩
    · have := h.1
      simpa [expandRecurrence, List.length_range] using this
    · exact h.2 rfl
  · decide

/-- Witness for `claim_C4_amended`: the counts identity at the concrete P9
input. -/
theorem claim_C4_amended_witness :
    (expandRecurrence [week2Blocker, recurrenceBase] recurrenceBase 4
      (fun i => 300 + i)).created +
    (expandRecurrence [week2Blocker, recurrenceBase] recurrenceBase 4
      (fun i => 300 + i)).skipped = 4 :=
  (claim_C4_amended.1 [week2Blocker, recurrenceBase] recurrenceBase 4
    (fun i => 300 + i)).1

/-- C9: grading with a parsed grade outside [1,10] is rejected before any
persistence and leaves the assignment unchanged; a valid grade sets the
grade, flips status to REVIEWED and stamps the review timestamp. -/
theorem claim_C9 :
    (∀ (a : Assignment) (u : Nat) (isT isM : Bool) (cm : String)
       (now g : Int),
      (isT || isM) = true →
      (match a.lessonTeacher with
        | some t => t != u && !isM
        | none => false) = false →
      g < 1 ∨ g > 10 →
      grade_assignment a u isT isM true (some g) cm now =
        (.invalidGrade, a)) ∧
    (∀ (a : Assignment) (u : Nat) (isT isM : Bool) (cm : String)
       (now g : Int),
      (isT || isM) = true →
      (match a.lessonTeacher with
        | some t => t != u && !isM
        | none => false) = false →
      1 ≤ g → g ≤ 10 →
      grade_assignment a u isT isM true (some g) cm now =
        (.ok g, mark_reviewed a cm (some g) now) ∧
      (mark_reviewed a cm (some g) now).grade = some g ∧
      (mark_reviewed a cm (some g) now).status = .reviewed ∧
      (mark_reviewed a cm (some g) now).reviewed_at = some now) := by
  constructor
  · intro a u isT isM cm now g hperm1 hperm2 hrange
    unfold grade_assignment
    rw [if_neg (by simp [hperm1]), if_neg (by simp [hperm2]),
      if_neg (by simp)]
    dsimp only
    rw [if_pos hrange]
  · intro a u isT isM cm now g hperm1 hperm2 hlo hhi
    refine ⟨?_, rfl, rfl, rfl⟩
    unfold grade_assignment
    rw [if_neg (by simp [hperm1]), if_neg (by simp [hperm2]),
      if_neg (by simp)]
    dsimp only
    rw [if_neg (by omega)]

/-- Witness for `claim_C9`: Scenario D on a concrete submitted assignment —
grade 11 rejected, grade 7 accepted with status REVIEWED. -/
theorem claim_C9_witness :
    grade_assignment submittedAssignment 1 true false true (some 11) "" 500 =
      (.invalidGrade, submittedAssignment) ∧
    grade_assignment submittedAssignment 1 true false true (some 7) "" 500 =
      (.ok 7, mark_reviewed submittedAssignment "" (some 7) 500) ∧
    (mark_reviewed submittedAssignment "" (some 7) 500).grade = some 7 ∧
    (mark_reviewed submittedAssignment "" (some 7) 500).status = .reviewed ∧
    (mark_reviewed submittedAssignment "" (some 7) 500).reviewed_at =
      some 500 :=
  ⟨claim_C9.1 submittedAssignment 1 true false "" 500 11 (by decide)
      (by decide) (by decide),
   (claim_C9.2 submittedAssignment 1 true false "" 500 7 (by decide)
      (by decide) (by decide) (by decide)).1,
   (claim_C9.2 submittedAssignment 1 true false "" 500 7 (by decide)
      (by decide) (by decide) (by decide)).2.1,
   (claim_C9.2 submittedAssignment 1 true false "" 500 7 (by decide)
      (by decide) (by decide) (by decide)).2.2.1,
   (claim_C9.2 submittedAssignment 1 true false "" 500 7 (by decide)
      (by decide) (by decide) (by decide)).2.2.2⟩

/-- Folding the running max from a `some` never yields `none`. -/
theorem foldl_max_some : ∀ (xs : List Nat) (v : Nat),
    ∃ w, xs.foldl (fun a y => match a with
      | none => some y
      | some u => some (max u y)) (some v) = some w := by
  intro xs
  induction xs with
  | nil => intro v; exact ⟨v, rfl⟩
  | cons y ys ih =>
      intro v
      rw [List.foldl_cons]
      exact ih (max v y)

/-- `maxNat?` is `none` only on the empty list. -/
theorem maxNat?_eq_none {l : List Nat} (h : maxNat? l = none) : l = [] := by
  cases l with
  | nil => rfl
  | cons x xs =>
      exfalso
      unfold maxNat? at h
      rw [List.foldl_cons] at h
      obtain ⟨w, hw⟩ := foldl_max_some xs x
      rw [hw] at h
      cases h

/-- `maxNat?` over an appended singleton takes the running max. -/
theorem maxNat?_append (l : List Nat) (x : Nat) :
    maxNat? (l ++ [x]) = some (match maxNat? l with
      | none => x
      | some v => max v x) := by
  unfold maxNat?
  rw [List.foldl_append]
  cases List.foldl (fun a y => match a with
    | none => some y
    | some u => some (max u y)) none l <;> rfl

/-- The largest of the versions 1..n+1 is n+1. -/
theorem maxNat?_range_succ : ∀ n : Nat,
    maxNat? ((List.range (n + 1)).map (· + 1)) = some (n + 1) := by
  intro n
  induction n with
  | zero => rfl
  | succ m ih =>
      rw [List.range_succ, List.map_append]
      simp only [List.map_cons, List.map_nil]
      rw [maxNat?_append, ih]
      dsimp only
      rw [Nat.max_eq_right (by omega)]

/-- `AssignmentSubmission.save` appends a row whose version is the current
maximum plus one (1 when the assignment has no submissions), never touching
the other rows' versions. -/
theorem createSubmission_versions (db : List AssignmentSubmission)
    (a : Nat) (fin : Bool) (nid : Nat) :
    (createSubmission db a fin nid).map (·.version) =
      db.map (·.version) ++ [newVersion db a] := by
  unfold createSubmission newVersion
  cases hm : maxNat? ((db.filter fun s => s.assignment == a).map (·.version))
    with
  | none => simp
  | some v =>
      simp only [List.map_append, List.map_map]
      congr 1
      have hcomp : ((fun s : AssignmentSubmission => s.version) ∘
          fun s => if s.assignment == a && s.is_final then
            { s with is_final := false } else s) =
          fun s : AssignmentSubmission => s.version := by
        funext s
        dsimp [Function.comp]
        split <;> rfl
      rw [hcomp]

/-- `AssignmentSubmission.save` keeps all rows on the same assignment. -/
theorem createSubmission_assignment (db : List AssignmentSubmission)
    (a : Nat) (fin : Bool) (nid : Nat)
    (hall : ∀ s ∈ db, s.assignment = a) :
    ∀ s ∈ createSubmission db a fin nid, s.assignment = a := by
  intro s hs
  unfold createSubmission at hs
  cases hm : maxNat? ((db.filter fun x => x.assignment == a).map (·.version))
    with
  | none =>
      rw [hm] at hs
      rcases List.mem_append.mp hs with h | h
      · exact hall s h
      · rw [List.mem_singleton] at h
        subst h
        rfl
  | some v =>
      rw [hm] at hs
      rcases List.mem_append.mp hs with h | h
      · obtain ⟨x, hx, hmap⟩ := List.mem_map.mp h
        subst hmap
        have := hall x hx
        split <;> exact this
      · rw [List.mem_singleton] at h
        subst h
        rfl

/-- Creating n submissions in order on an empty table yields version numbers
1..n in creation order. -/
theorem createMany_versions (a : Nat) (fins : Nat → Bool) :
    ∀ n, ((createMany a fins n).map (·.version) =
        (List.range n).map (· + 1)) ∧
      (∀ s ∈ createMany a fins n, s.assignment = a) := by
  intro n
  induction n with
  | zero =>
      refine ⟨rfl, ?_⟩
      intro s hs
      cases hs
  | succ n ih =>
      have hfilter : (createMany a fins n).filter
          (fun s => s.assignment == a) = createMany a fins n := by
        rw [List.filter_eq_self]
        intro s hs
        simp [ih.2 s hs]
      constructor
      · show (createSubmission (createMany a fins n) a (fins (n + 1))
            (n + 1)).map (·.version) = _
        rw [createSubmission_versions, ih.1]
        have hnv : newVersion (createMany a fins n) a = n + 1 := by
          unfold newVersion
          rw [hfilter, ih.1]
          cases n with
          | zero => rfl
          | succ m => rw [maxNat?_range_succ m]
        rw [hnv, List.range_succ, List.map_append]
        simp
      · show ∀ s ∈ createSubmission (createMany a fins n) a (fins (n + 1))
            (n + 1), s.assignment = a
        exact createSubmission_assignment _ _ _ _ ih.2

/-- If the assignment has no submissions, no row of the table belongs to
it. -/
theorem no_rows_of_maxNone {db : List AssignmentSubmission} {a : Nat}
    (hm : maxNat? ((db.filter fun s => s.assignment == a).map (·.version)) =
      none) :
    ∀ s ∈ db, (s.assignment == a) = false := by
  have hnil : (db.filter fun s => s.assignment == a) = [] :=
    List.map_eq_nil_iff.mp (maxNat?_eq_none hm)
  intro s hs
  have := List.filter_eq_nil_iff.mp hnil s hs
  simpa using this

/-- After a submission saved with the default `is_final = True`, that row is
the unique final submission of its assignment. -/
theorem finals_after_final (db : List AssignmentSubmission) (a nid : Nat) :
    (createSubmission db a true nid).filter
      (fun s => s.assignment == a && s.is_final) =
      [{ id := nid, assignment := a, version := newVersion db a,
         is_final := true }] := by
  unfold createSubmission newVersion
  cases hm : maxNat? ((db.filter fun s => s.assignment == a).map (·.version))
    with
  | none =>
      rw [List.filter_append]
      have h1 : db.filter (fun s => s.assignment == a && s.is_final) = [] := by
        rw [List.filter_eq_nil_iff]
        intro s hs
        simp [no_rows_of_maxNone hm s hs]
      rw [h1]
      simp
  | some v =>
      rw [List.filter_append]
      have h1 : ((db.map fun s =>
          if s.assignment == a && s.is_final then { s with is_final := false }
          else s).filter fun s => s.assignment == a && s.is_final) = [] := by
        rw [List.filter_eq_nil_iff]
        intro s hs
        obtain ⟨x, hx, hmap⟩ := List.mem_map.mp hs
        subst hmap
        by_cases hc : (x.assignment == a && x.is_final) = true
        · rw [if_pos hc]
          simp
        · rw [if_neg hc]
          simpa using hc
      rw [h1]
      simp

/-- After a submission saved with `is_final = False` (the assignment
materials path), the assignment has no final submission at all. -/
theorem finals_after_nonfinal (db : List AssignmentSubmission) (a nid : Nat) :
    (createSubmission db a false nid).filter
      (fun s => s.assignment == a && s.is_final) = [] := by
  unfold createSubmission
  cases hm : maxNat? ((db.filter fun s => s.assignment == a).map (·.version))
    with
  | none =>
      rw [List.filter_append]
      have h1 : db.filter (fun s => s.assignment == a && s.is_final) = [] := by
        rw [List.filter_eq_nil_iff]
        intro s hs
        simp [no_rows_of_maxNone hm s hs]
      rw [h1]
      simp
  | some v =>
      rw [List.filter_append]
      have h1 : ((db.map fun s =>
          if s.assignment == a && s.is_final then { s with is_final := false }
          else s).filter fun s => s.assignment == a && s.is_final) = [] := by
        rw [List.filter_eq_nil_iff]
        intro s hs
        obtain ⟨x, hx, hmap⟩ := List.mem_map.mp hs
        subst hmap
        by_cases hc : (x.assignment == a && x.is_final) = true
        · rw [if_pos hc]
          simp
        · rw [if_neg hc]
          simpa using hc
      rw [h1]
      simp

/-- C7 counterexample: the assignment-materials path
(`AssignmentCreateView.form_valid`, cited by the claim) creates a submission
with `is_final=False`; after it, the assignment has one stored submission
but zero `is_final=true` rows — "exactly one final at any time" fails. -/
theorem claim_C7_counterexample :
    createSubmission [] 5 false 10 =
      [{ id := 10, assignment := 5, version := 1, is_final := false }] ∧
    ((createSubmission [] 5 false 10).filter
      fun s => s.assignment == 5 && s.is_final).length = 0 := by
  decide

/-- C7 amended: creating N submissions yields versions 1..N in creation
order (each new row gets max existing version for its assignment plus one);
a submission saved with the default `is_final=true` becomes the unique final
row of its assignment, flipping all previous finals — so at most one final
exists at any time, and when one exists it is the most recently created
final-flagged row; a submission saved with `is_final=false` (the materials
path) leaves the assignment with no final row. -/
theorem claim_C7_amended :
    (∀ (a : Nat) (fins : Nat → Bool) (n : Nat),
      (createMany a fins n).map (·.version) = (List.range n).map (· + 1)) ∧
    (∀ (db : List AssignmentSubmission) (a nid : Nat),
      (createSubmission db a true nid).filter
        (fun s => s.assignment == a && s.is_final) =
        [{ id := nid, assignment := a, version := newVersion db a,
           is_final := true }]) ∧
    (∀ (db : List AssignmentSubmission) (a nid : Nat),
      (createSubmission db a false nid).filter
        (fun s => s.assignment == a && s.is_final) = []) :=
  ⟨fun a fins n => (createMany_versions a fins n).1,
   finals_after_final, finals_after_nonfinal⟩

/-- C8: a successful feedback submission implies the requester is the
lesson's student, the lesson is COMPLETED with its end in the past, and the
rating is an integer in [1,10]; it stores exactly one row for the
`(lesson, student)` pair, and repeating the same submission is answered with
the conflict response (HTTP 409, distinct from the validation 400) without
storing anything. -/
theorem claim_C8 (lessons : List Lesson) (fdb fdb' : List LessonFeedback)
    (p : FeedbackPayload) (u : Nat) (isStud : Bool) (now : Int)
    (h : feedback_submit lessons fdb p u isStud now = (.ok, fdb')) :
    (isStud = true ∧
     ∃ lid les r, p.lessonId = some lid ∧ p.ratingParsed = some r ∧
       findLesson lessons lid = some les ∧ les.student = u ∧
       les.status = .completed ∧ now > les.end_time ∧ 1 ≤ r ∧ r ≤ 10 ∧
       fdb' = fdb ++ [{ lesson := lid, user := u, is_teacher := false,
                        rating := r, comment := p.comment }] ∧
       countFeedback fdb lid u = 0 ∧ countFeedback fdb' lid u = 1) ∧
    feedback_submit lessons fdb' p u isStud now = (.alreadyExists, fdb') ∧
    feedbackStatusCode .alreadyExists = 409 ∧
    feedbackStatusCode .ratingOutOfRange = 400 := by
  unfold feedback_submit at h
  cases hlid : p.lessonId with
  | none =>
      rw [hlid] at h
      simp at h
  | some lid =>
      rw [hlid] at h
      cases hpres : p.ratingPresent with
      | false =>
          rw [hpres] at h
          simp at h
      | true =>
          rw [hpres] at h
          dsimp only at h
          cases hparse : p.ratingParsed with
          | none =>
              rw [hparse] at h
              simp at h
          | some r =>
              rw [hparse] at h
              dsimp only at h
              by_cases hrange : (r < 1 ∨ r > 10)
              · rw [if_pos hrange] at h
                simp at h
              · rw [if_neg hrange] at h
                cases hles : findLesson lessons lid with
                | none =>
                    rw [hles] at h
                    simp at h
                | some les =>
                    rw [hles] at h
                    dsimp only at h
                    by_cases hperm : (¬ isStud = true ∨ les.student ≠ u)
                    · rw [if_pos hperm] at h
                      simp at h
                    · rw [if_neg hperm] at h
                      by_cases hrate : (les.status ≠ .completed ∨
                        now ≤ les.end_time)
                      · rw [if_pos hrate] at h
                        simp at h
                      · rw [if_neg hrate] at h
                        by_cases hexists : ((fdb.any fun fb =>
                            fb.lesson == lid && fb.user == u) = true)
                        · rw [if_pos hexists] at h
                          simp at h
                        · rw [if_neg hexists] at h
                          rw [Prod.mk.injEq] at h
                          obtain ⟨-, hdb⟩ := h
                          have hperm' := hperm
                          have hrate' := hrate
                          have hrange' := hrange
                          push_neg at hperm' hrate' hrange'
                          have hnone : ∀ fb ∈ fdb,
                              ¬ (fb.lesson == lid && fb.user == u) = true := by
                            intro fb hfb hc
                            exact hexists
                              (List.any_eq_true.mpr ⟨fb, hfb, hc⟩)
                          have hcnt0 : countFeedback fdb lid u = 0 := by
                            unfold countFeedback
                            rw [List.filter_eq_nil_iff.mpr hnone]
                            rfl
                          have hcnt1 : countFeedback (fdb ++
                              [{ lesson := lid, user := u,
                                  is_teacher := false, rating := r,
                                  comment := p.comment }]) lid u = 1 := by
                            unfold countFeedback
                            rw [List.filter_append,
                              List.filter_eq_nil_iff.mpr hnone]
                            simp
                          have hany : ((fdb ++
                              [({ lesson := lid, user := u,
                                  is_teacher := false, rating := r,
                                  comment := p.comment } : LessonFeedback)]).any
                              fun fb =>
                              fb.lesson == lid && fb.user == u) = true := by
                            rw [List.any_append]
                            simp
                          refine ⟨⟨hperm'.1, lid, les, r, rfl, rfl,
                            hles, hperm'.2, hrate'.1, hrate'.2, hrange'.1,
                            hrange'.2, hdb.symm, hcnt0, ?_⟩, ?_, rfl, rfl⟩
                          · rw [hdb] at hcnt1
                            exact hcnt1
                          · rw [← hdb]
                            unfold feedback_submit
                            rw [hlid, hpres]
                            dsimp only
                            rw [hparse]
                            dsimp only
                            rw [if_neg hrange, hles]
                            dsimp only
                            rw [if_neg hperm, if_neg hrate, if_pos hany]

/-- Witness for `claim_C8`: student 2 submits rating 8 for the completed
lesson 3 at time 200; the repeat attempt gets the 409 conflict. -/
theorem claim_C8_witness :
    (true = true ∧
     ∃ lid les r, feedbackPayload8.lessonId = some lid ∧
       feedbackPayload8.ratingParsed = some r ∧
       findLesson [completedLesson] lid = some les ∧ les.student = 2 ∧
       les.status = .completed ∧ (200 : Int) > les.end_time ∧
       1 ≤ r ∧ r ≤ 10 ∧
       [feedbackRow8] = [] ++ [{ lesson := lid, user := 2,
                                 is_teacher := false, rating := r,
                                 comment := feedbackPayload8.comment }] ∧
       countFeedback [] lid 2 = 0 ∧ countFeedback [feedbackRow8] lid 2 = 1) ∧
    feedback_submit [completedLesson] [feedbackRow8] feedbackPayload8 2 true
      200 = (.alreadyExists, [feedbackRow8]) ∧
    feedbackStatusCode .alreadyExists = 409 ∧
    feedbackStatusCode .ratingOutOfRange = 400 :=
  claim_C8 [completedLesson] [] [feedbackRow8] feedbackPayload8 2 true 200
    (by decide)

/-- C6: rescheduling a lesson whose original window is still unset stores
that window in `original_start_time`/`original_end_time`, and a second
reschedule leaves those values untouched; the lesson ends with status
RESCHEDULED. -/
theorem claim_C6 (db db1 db2 : List Lesson) (i : Nat) (l : Lesson)
    (s1 tz1 now1 s2 tz2 now2 : Int) (e1 e2 : Option Int)
    (hfind : findLesson db i = some l)
    (ho1 : l.original_start_time = none)
    (ho2 : l.original_end_time = none)
    (h1 : rescheduleLesson db i s1 tz1 e1 now1 = (.success, db1))
    (h2 : rescheduleLesson db1 i s2 tz2 e2 now2 = (.success, db2)) :
    ∃ lf, findLesson db2 i = some lf ∧
      lf.original_start_time = some l.start_time ∧
      lf.original_end_time = some l.end_time ∧
      lf.status = .rescheduled := by
  have hf1 := rescheduleLesson_success hfind h1
  have hf2 := rescheduleLesson_success hf1 h2
  refine ⟨_, hf2, ?_, ?_, rfl⟩
  · simp [applyReschedule, ho1]
  · simp [applyReschedule, ho2]

/-- Witness for `claim_C6`: a concrete SCHEDULED lesson on [100,160)
rescheduled twice keeps the original window and ends RESCHEDULED. -/
theorem claim_C6_witness :
    ∃ lf, findLesson
      (rescheduleLesson (rescheduleLesson [freshLesson] 7 300 0 none 0).2
        7 500 0 none 0).2 7 = some lf ∧
      lf.original_start_time = some 100 ∧
      lf.original_end_time = some 160 ∧
      lf.status = .rescheduled :=
  claim_C6 [freshLesson] (rescheduleLesson [freshLesson] 7 300 0 none 0).2
    (rescheduleLesson (rescheduleLesson [freshLesson] 7 300 0 none 0).2
      7 500 0 none 0).2
    7 freshLesson 300 0 0 500 0 0 none none (by decide) (by decide)
    (by decide) (by decide) (by decide)

/-- C1 counterexample: with a RESCHEDULED lesson of teacher 1 on [100,160) in
the table, the full create path (`LessonForm.clean` followed by
`Lesson.save`) accepts a new SCHEDULED lesson of the same teacher on the very
same window, because both conflict queries filter on
`status__in=[SCHEDULED, COMPLETED]` and so never see RESCHEDULED rows; the
resulting table has two overlapping active (glossary sense) lessons of one
teacher. -/
theorem claim_C1_counterexample :
    claimedTeacherInvariant [rescheduledLesson] ∧
    createLessonViaForm [rescheduledLesson] 1 1 3 100 0 60 "z" 0 =
      .ok [rescheduledLesson, clashingLesson] ∧
    ¬ claimedTeacherInvariant [rescheduledLesson, clashingLesson] := by
  refine ⟨by decide, by decide, by decide⟩

/-- C1 amended: restricted to lessons with status SCHEDULED or COMPLETED (the
statuses the code's conflict queries use), pairwise non-overlap per teacher
is an invariant of every persistence path: any `Lesson.save` — insert of a
new row or update of an existing one — that succeeds preserves it.  (The
15-minute break and RESCHEDULED lessons are checked only by the form path,
not maintained as a table invariant.) -/
theorem claim_C1_amended (db : List Lesson) (l : Lesson) (db' : List Lesson)
    (hinv : codeTeacherNoOverlap db)
    (hsave : insertLesson db l = .ok db' ∨ updateLesson db l = .ok db') :
    codeTeacherNoOverlap db' := by
  have hclean : Lesson.clean db l = .ok () ∧
      (db' = db ++ [l] ∨ db' = db.map fun x => if x.id == l.id then l else x) := by
    rcases hsave with h | h
    · unfold insertLesson at h
      cases hc : Lesson.clean db l with
      | error e => rw [hc] at h; cases h
      | ok u => cases u; rw [hc] at h; injection h with h; exact ⟨rfl, .inl h.symm⟩
    · unfold updateLesson at h
      cases hc : Lesson.clean db l with
      | error e => rw [hc] at h; cases h
      | ok u => cases u; rw [hc] at h; injection h with h; exact ⟨rfl, .inr h.symm⟩
  obtain ⟨hc, hdb⟩ := hclean
  have hsep := clean_ok_teacher_separated hc
  rcases hdb with hdb | hdb
  · subst hdb
    intro l1 h1 l2 h2 hid ht ha1 ha2
    rw [List.mem_append, List.mem_singleton] at h1 h2
    rcases h1 with h1 | h1 <;> rcases h2 with h2 | h2
    · exact hinv l1 h1 l2 h2 hid ht ha1 ha2
    · subst h2
      exact (hsep l1 h1 ht ha1 hid).symm
    · subst h1
      exact hsep l2 h2 ht.symm ha2 (Ne.symm hid)
    · subst h1; subst h2; exact absurd rfl hid
  · subst hdb
    intro l1 h1 l2 h2 hid ht ha1 ha2
    rw [List.mem_map] at h1 h2
    obtain ⟨x1, hx1, hmap1⟩ := h1
    obtain ⟨x2, hx2, hmap2⟩ := h2
    by_cases e1 : x1.id = l.id
    · rw [if_pos (by simpa using e1)] at hmap1
      subst hmap1
      by_cases e2 : x2.id = l.id
      · rw [if_pos (by simpa using e2)] at hmap2
        subst hmap2
        exact absurd rfl hid
      · rw [if_neg (by simpa using e2)] at hmap2
        subst hmap2
        exact hsep x2 hx2 ht.symm ha2 e2
    · rw [if_neg (by simpa using e1)] at hmap1
      subst hmap1
      by_cases e2 : x2.id = l.id
      · rw [if_pos (by simpa using e2)] at hmap2
        subst hmap2
        exact (hsep x1 hx1 ht ha1 e1).symm
      · rw [if_neg (by simpa using e2)] at hmap2
        subst hmap2
        exact hinv x1 hx1 x2 hx2 hid ht ha1 ha2

/-- Witness for `claim_C1_amended` at a concrete input: inserting
`clashingLesson` into the empty table. -/
theorem claim_C1_amended_witness :
    codeTeacherNoOverlap ([] : List Lesson) ∧
    insertLesson [] clashingLesson = .ok [clashingLesson] ∧
    codeTeacherNoOverlap [clashingLesson] :=
  ⟨by decide, by decide,
    claim_C1_amended [] clashingLesson [clashingLesson] (by decide)
      (.inl (by decide))⟩

